import Mathlib

set_option maxRecDepth 100000

/-!
Verification of the Entity Resolution Engine of this repository against its
natural-language specification.  The definitions below are a shallow embedding
of the TypeScript sources:

* `src/server/src/utils/fuzzyMatching.ts`   (tokenizer, similarity, matcher)
* `src/server/src/utils/confidenceScoring.ts` (confidence scorer)
* the `EnhancedEntityService` class (resolution orchestrator and store access)

JavaScript numbers are modelled as exact rationals, JavaScript strings as Lean
strings over their character lists, the SQL store as explicit record lists,
and exceptions as `Except`.  Nondeterministic identifiers (timestamps and
random suffixes) are modelled by fresh counters; only freshness is observable.

Rationals are represented by the executable type `Q` below (numerator and
positive denominator, ordering by cross multiplication) so that every
definition evaluates inside the kernel; `Q.toRat` maps a value to the
mathematical rational it denotes, and theorems about numeric outputs are
stated through `Q.toRat`.
-/

namespace TribeER

/-! ### Executable rationals -/

/-- An executable rational: a numerator and a denominator.  All values built
by the operations below have a positive denominator; the denominator is not
reduced, and ordering and value equality are by cross multiplication. -/
structure Q where
  num : ℤ
  den : ℕ
  deriving Repr, DecidableEq

/-- The rational number denoted by a `Q`. -/
def Q.toRat (q : Q) : ℚ := (q.num : ℚ) / (q.den : ℚ)

/-- Constructor fixing the sign of the denominator (a zero denominator, which
no operation here produces from denotable arguments, is mapped to 0). -/
def Q.mk' (n d : ℤ) : Q :=
  if d = 0 then ⟨0, 1⟩
  else if d < 0 then ⟨-n, (-d).toNat⟩
  else ⟨n, d.toNat⟩

instance : OfNat Q n := ⟨⟨(n : ℤ), 1⟩⟩

instance : OfScientific Q :=
  ⟨fun m b e => if b then Q.mk' (m : ℤ) ((10 ^ e : ℕ) : ℤ) else ⟨(m : ℤ) * (10 ^ e : ℤ), 1⟩⟩

instance : NatCast Q := ⟨fun n => ⟨(n : ℤ), 1⟩⟩

instance : IntCast Q := ⟨fun n => ⟨n, 1⟩⟩

instance : Neg Q := ⟨fun a => ⟨-a.num, a.den⟩⟩

instance : Add Q := ⟨fun a b => Q.mk' (a.num * b.den + b.num * a.den) (a.den * b.den)⟩

instance : Sub Q := ⟨fun a b => Q.mk' (a.num * b.den - b.num * a.den) (a.den * b.den)⟩

instance : Mul Q := ⟨fun a b => Q.mk' (a.num * b.num) (a.den * b.den)⟩

instance : Div Q := ⟨fun a b => Q.mk' (a.num * b.den) (a.den * b.num)⟩

instance : LE Q := ⟨fun a b => a.num * (b.den : ℤ) ≤ b.num * (a.den : ℤ)⟩

instance : LT Q := ⟨fun a b => a.num * (b.den : ℤ) < b.num * (a.den : ℤ)⟩

instance (a b : Q) : Decidable (a ≤ b) :=
  inferInstanceAs (Decidable (a.num * (b.den : ℤ) ≤ b.num * (a.den : ℤ)))

instance (a b : Q) : Decidable (a < b) :=
  inferInstanceAs (Decidable (a.num * (b.den : ℤ) < b.num * (a.den : ℤ)))

/-- Value equality of two `Q` (JavaScript `===` on numbers). -/
def Q.qeq (a b : Q) : Prop := a.num * (b.den : ℤ) = b.num * (a.den : ℤ)

instance (a b : Q) : Decidable (a.qeq b) :=
  inferInstanceAs (Decidable (a.num * (b.den : ℤ) = b.num * (a.den : ℤ)))

/-- The `Math.min` of two rationals. -/
def Q.qmin (a b : Q) : Q := if a ≤ b then a else b

/-- The `Math.max` of two rationals. -/
def Q.qmax (a b : Q) : Q := if a ≤ b then b else a

/-- Floor of a `Q` with positive denominator. -/
def Q.floor (q : Q) : ℤ := q.num.ediv (q.den : ℤ)

/-! ### JavaScript string primitives (ASCII case mapping, trim, split) -/

/-- JavaScript `String.prototype.toLowerCase` restricted to ASCII letters, which is all
the repository feeds it (emails, names, domains). -/
def jsToLowerChar (c : Char) : Char :=
  if 65 ≤ c.toNat ∧ c.toNat ≤ 90 then Char.ofNat (c.toNat + 32) else c

/-- JavaScript `String.prototype.toUpperCase` on one ASCII character. -/
def jsToUpperChar (c : Char) : Char :=
  if 97 ≤ c.toNat ∧ c.toNat ≤ 122 then Char.ofNat (c.toNat - 32) else c

def jsToLower (s : String) : String := ⟨s.data.map jsToLowerChar⟩

/-- Whitespace recognised by `trim` and by the `\s` regex class (space, tab,
line feed, vertical tab, form feed, carriage return). -/
def isWsChar (c : Char) : Bool :=
  c == ' ' || c == '\t' || c == '\n' || c == '\r' ||
    c.toNat == 11 || c.toNat == 12

def dropWhileEnd (p : Char → Bool) (l : List Char) : List Char :=
  (l.reverse.dropWhile p).reverse

/-- JavaScript `String.prototype.trim`. -/
def jsTrim (s : String) : String := ⟨dropWhileEnd isWsChar (s.data.dropWhile isWsChar)⟩

/-- JavaScript `split` on a single-character separator class, JavaScript style: `n`
separators yield `n + 1` (possibly empty) fields. -/
def splitSepChars (isSep : Char → Bool) : List Char → List (List Char)
  | [] => [[]]
  | c :: rest =>
    let r := splitSepChars isSep rest
    if isSep c then [] :: r
    else
      match r with
      | [] => [[c]]
      | h :: t => (c :: h) :: t

def splitSepStr (sep : Char) (s : String) : List String :=
  (splitSepChars (· == sep) s.data).map (⟨·⟩)

/-- JavaScript `split` on a whitespace-run regex, with empty fields discarded.  JavaScript keeps an empty
field at a boundary of the string; every use in the sources either filters the
fields by length or applies the split to a trimmed string, so discarding the
empties is behaviourally identical. -/
def splitWsRuns (l : List Char) : List (List Char) :=
  (splitSepChars isWsChar l).filter (· ≠ [])

def splitWsRunsStr (s : String) : List String := (splitWsRuns s.data).map (⟨·⟩)

/-- JavaScript `a || b` for strings: the empty string is falsy. -/
def orElseStr : Option String → String → String
  | some s, b => if s = "" then b else s
  | none, b => b

/-- The capitalization `part.charAt(0).toUpperCase() + part.slice(1)`. -/
def capitalizeFirst (s : String) : String :=
  match s.data with
  | [] => ""
  | c :: rest => ⟨jsToUpperChar c :: rest⟩

/-! ### `fuzzyMatching.ts` -/

/-- Removal step of `replace(/[^a-zA-Z0-9\s]/g, '')`. -/
def stripNonAlnumSpace (l : List Char) : List Char :=
  l.filter (fun c => c.isAlpha || c.isDigit || isWsChar c)

/-- The spread `[...new Set(xs)]`: deduplicate keeping first occurrences. -/
def dedupKeepFirst {α : Type} [BEq α] (seen : List α) : List α → List α
  | [] => []
  | x :: xs =>
    if seen.contains x then dedupKeepFirst seen xs
    else x :: dedupKeepFirst (x :: seen) xs

/-- Function `generateFuzzyTokens` of `fuzzyMatching.ts`. -/
def generateFuzzyTokens (name : String) : List String :=
  let cleanName : List Char := stripNonAlnumSpace (jsTrim (jsToLower name)).data
  if cleanName = [] then []
  else
    let parts := (splitWsRuns cleanName).filter (fun p => 1 < p.length)
    let base := cleanName :: parts
    let withAbbrev :=
      if 2 ≤ parts.length then
        let first := parts.headD []
        let last := parts.getLastD []
        base ++
          [first ++ [' '] ++ last.take 1,
           first.take 1 ++ [' '] ++ last,
           first.take 1 ++ [' '] ++ last.take 1] ++
          [List.intercalate [' '] (parts.map (·.take 1))]
      else base
    (dedupKeepFirst [] withAbbrev).map (⟨·⟩)

/-- One row update of the `levenshteinDistance` dynamic program: walks the
characters of `str1` with the previous row, carrying the diagonal and the
entry to the left. -/
def levRowAux (c2 : Char) : List Char → Nat → Nat → List Nat → List Nat
  | [], _, _, _ => []
  | x :: xs, diag, left, up :: ups =>
    let cur := if x = c2 then diag
               else Nat.min (Nat.min (diag + 1) (left + 1)) (up + 1)
    cur :: levRowAux c2 xs up cur ups
  | _ :: _, _, _, [] => []

def levNextRow (s1 : List Char) (prev : List Nat) (c2 : Char) : List Nat :=
  match prev with
  | [] => []
  | d :: rest => (d + 1) :: levRowAux c2 s1 d (d + 1) rest

/-- Function `levenshteinDistance` of `fuzzyMatching.ts` (the same row-by-row dynamic
program as the matrix in the source; `matrix[i][j]` is the entry `j` of the
row after consuming `i` characters of `str2`). -/
def levenshteinDistance (str1 str2 : String) : Nat :=
  let row0 : List Nat := List.range (str1.data.length + 1)
  (str2.data.foldl (levNextRow str1.data) row0).getLastD 0

/-- Function `stringSimilarity` of `fuzzyMatching.ts`.  Note the falsy guard: an empty
input — including both inputs empty — returns 0 before the `maxLength`
guard is reached. -/
def stringSimilarity (str1 str2 : String) : Q :=
  if str1 = "" ∨ str2 = "" then 0
  else if str1 = str2 then 1
  else
    let maxLength := max str1.data.length str2.data.length
    if maxLength = 0 then 1
    else
      let distance := levenshteinDistance (jsToLower str1) (jsToLower str2)
      1 - (distance : Q) / (maxLength : Q)

/-- Function `calculateNameMatchScore` of `fuzzyMatching.ts`. -/
def calculateNameMatchScore (inputName candidateName : String)
    (candidateAliases : List String) : Q :=
  if inputName = "" ∨ candidateName = "" then 0
  else
    let inputClean := jsTrim (jsToLower inputName)
    let candidateClean := jsTrim (jsToLower candidateName)
    if inputClean = candidateClean then 1
    else if candidateAliases.any (fun al => inputClean = jsTrim (jsToLower al)) then 0.95
    else
      let inputTokens := generateFuzzyTokens inputName
      let candidateTokens := generateFuzzyTokens candidateName
      let tokenScores :=
        inputTokens.flatMap fun it => candidateTokens.map fun ct => stringSimilarity it ct
      let aliasScores :=
        candidateAliases.flatMap fun al =>
          let aliasTokens := generateFuzzyTokens al
          inputTokens.flatMap fun it => aliasTokens.map fun atk => stringSimilarity it atk
      let bestScore := (tokenScores ++ aliasScores).foldl Q.qmax 0
      let inputParts := splitWsRunsStr inputClean
      let candidateParts := splitWsRunsStr candidateClean
      if 2 ≤ inputParts.length ∧ 2 ≤ candidateParts.length then
        let firstMatch := stringSimilarity (inputParts.headD "") (candidateParts.headD "")
        let lastMatch := stringSimilarity (inputParts.getLastD "") (candidateParts.getLastD "")
        if 0.8 < firstMatch ∧ 0.6 < lastMatch then
          Q.qmax bestScore ((firstMatch + lastMatch) / 2)
        else bestScore
      else bestScore

/-- Function `calculateEmailDomainScore` of `fuzzyMatching.ts`. -/
def calculateEmailDomainScore (email1 email2 : String) : Q :=
  if email1 = "" ∨ email2 = "" then 0
  else
    let d1 := jsToLower ((splitSepStr '@' email1).getD 1 "")
    let d2 := jsToLower ((splitSepStr '@' email2).getD 1 "")
    if d1 = "" ∨ d2 = "" then 0
    else if d1 = d2 then 1
    else stringSimilarity d1 d2

/-- The fixed list of personal email domains of the sources. -/
def personalDomains : List String :=
  ["gmail.com", "yahoo.com", "hotmail.com", "outlook.com",
   "icloud.com", "me.com", "mac.com", "aol.com", "protonmail.com",
   "fastmail.com", "hey.com"]

/-- Function `extractCompanyFromEmailDomain` of `fuzzyMatching.ts`. -/
def extractCompanyFromEmailDomain (email : String) : Option String :=
  if email = "" ∨ ¬ email.data.contains '@' then none
  else
    match (splitSepStr '@' email)[1]? with
    | none => none
    | some d =>
      let domain := jsToLower d
      if domain = "" then none
      else if personalDomains.contains domain then none
      else
        let domainParts := splitSepStr '.' domain
        if 2 ≤ domainParts.length then
          some (String.intercalate " "
            (((splitSepChars (fun c => c == '-' || c == '_')
                (domainParts.headD "").data).map (⟨·⟩)).map capitalizeFirst))
        else none

structure MatchCandidate where
  id : String
  name : String
  email : Option String := none
  aliases : List String := []
  confidence : Q
  deriving Repr, DecidableEq

structure FuzzyMatchResult where
  candidate : MatchCandidate
  score : Q
  matchType : String
  matchDetails : String
  deriving Repr, DecidableEq

structure MatchInput where
  name : Option String := none
  email : Option String := none
  displayName : Option String := none

/-- The email section of the per-candidate body of `findBestMatches`:
exact-email short circuit, else the domain-similarity contribution. -/
def scoreEmailStage (inputEmail : String) (candidate : MatchCandidate) :
    Q × String × String :=
  let s0 : Q × String × String := (0, "fuzzy_name", "")
  match candidate.email with
  | some cem =>
    if inputEmail ≠ "" ∧ cem ≠ "" then
      if jsToLower inputEmail = jsToLower cem then
        ((1 : Q), "exact_email", "Exact email match")
      else
        let domainScore := calculateEmailDomainScore inputEmail cem
        if (0.8 : Q) < domainScore then
          (Q.qmax s0.1 (domainScore * 0.7), "email_domain", "Same email domain")
        else s0
    else s0
  | none => s0

/-- The name section of the per-candidate body of `findBestMatches`:
exact-name bonus, then the fuzzy name score if it beats the running best. -/
def scoreNameStage (inputName : String) (candidate : MatchCandidate)
    (s1 : Q × String × String) : Q × String × String :=
  if inputName ≠ "" then
    let s2 :=
      if jsToLower inputName = jsToLower candidate.name then
        let b := Q.qmax s1.1 0.95
        if b.qeq 0.95 then (b, "exact_name", "Exact name match") else (b, s1.2.1, s1.2.2)
      else s1
    let nameScore := calculateNameMatchScore inputName candidate.name candidate.aliases
    if s2.1 < nameScore then
      (nameScore, if (0.9 : Q) < nameScore then "alias" else "fuzzy_name", "Name similarity")
    else s2
  else s1

/-- The per-candidate scoring body of `findBestMatches`: the final
`(bestScore, matchType, matchDetails)` for one candidate, assembled from its
email section and its name section (the percentage text of the fuzzy branch
is abbreviated; no claim reads it). -/
def scoreCandidate (inputName inputEmail : String) (candidate : MatchCandidate) :
    Q × String × String :=
  scoreNameStage inputName candidate (scoreEmailStage inputEmail candidate)

/-- Stable insertion keeping existing entries with an equal or larger score in
front: folding with it reproduces the stable sort by descending score that
`Array.prototype.sort` performs with the comparator `b.score - a.score`. -/
def insertByScoreDesc (r : FuzzyMatchResult) :
    List FuzzyMatchResult → List FuzzyMatchResult
  | [] => [r]
  | x :: xs => if r.score ≤ x.score then x :: insertByScoreDesc r xs else r :: x :: xs

def sortByScoreDesc (l : List FuzzyMatchResult) : List FuzzyMatchResult :=
  l.foldl (fun acc r => insertByScoreDesc r acc) []

/-- Function `findBestMatches` of `fuzzyMatching.ts`. -/
def findBestMatches (input : MatchInput) (candidates : List MatchCandidate)
    (threshold : Q) : List FuzzyMatchResult :=
  let inputName := orElseStr input.displayName (orElseStr input.name "")
  let inputEmail := orElseStr input.email ""
  let results := candidates.filterMap fun c =>
    let r := scoreCandidate inputName inputEmail c
    if threshold ≤ r.1 then some ⟨c, r.1, r.2.1, r.2.2⟩ else none
  sortByScoreDesc results

/-! ### Data model (`types/entities.ts` and the `people` table) -/

/-- A `Person` record as stored in the `people` table and returned by the
service (the joined `company` object is not reproduced; no claim reads it).
`person_type`, `entity_status` and `fuzzy_name_tokens` are columns written by
`createPerson` and read by the lookup queries. -/
structure Person where
  id : String
  name : String
  emails : List String
  company_id : Option String := none
  title : Option String := none
  slack_handles : List String := []
  linkedin_url : Option String := none
  notable_facts : List String := []
  aliases : List String := []
  confidence : Q
  last_interaction : Option Nat := none
  interaction_count : Nat := 0
  person_type : String := "external"
  entity_status : String := "active"
  fuzzy_name_tokens : List String := []
  deriving Repr, DecidableEq

/-- JavaScript truthiness of an optional string field. -/
def isTruthyStr : Option String → Bool
  | some s => s ≠ ""
  | none => false

/-! ### `confidenceScoring.ts` -/

structure ContextualClues where
  titleMatch : Bool
  companyMatch : Bool
  slackHandleMatch : Bool
  deriving Repr, DecidableEq

structure ConfidenceSignals where
  emailMatch : Bool
  nameMatchScore : Q
  domainMatch : Bool
  aliasMatch : Bool
  interactionHistory : ℤ
  manualVerification : Bool
  timeDecay : Q
  contextualClues : ContextualClues
  deriving Repr, DecidableEq

structure ConfidenceBreakdown where
  identity : Q
  completeness : Q
  freshness : Q
  reliability : Q
  deriving Repr, DecidableEq

structure ConfidenceResult where
  finalScore : Q
  breakdown : ConfidenceBreakdown
  factors : List String
  riskFlags : List String
  deriving Repr, DecidableEq

/-- The rounding `Math.round(q * 100) / 100` (every quantity rounded by the scorer is
non-negative, where `Math.round` is the floor of `x + 1/2`). -/
def jsRound2 (q : Q) : Q := Q.mk' (Q.floor (q * 100 + Q.mk' 1 2)) 100

/-- The identity section of `calculateEnhancedConfidence` (additive bonuses,
then the manual-verification bonus capped at 1.0). -/
def identityScoreOf (signals : ConfidenceSignals) : Q :=
  let base : Q :=
    (if signals.emailMatch then 0.5 else if signals.domainMatch then 0.3 else 0)
    + (if (0.9 : Q) < signals.nameMatchScore then 0.4
       else if (0.7 : Q) < signals.nameMatchScore then 0.25
       else if (0.5 : Q) < signals.nameMatchScore then 0.1 else 0)
    + (if signals.aliasMatch then 0.2 else 0)
    + (if signals.contextualClues.titleMatch then 0.1 else 0)
    + (if signals.contextualClues.companyMatch then 0.15 else 0)
    + (if signals.contextualClues.slackHandleMatch then 0.1 else 0)
  if signals.manualVerification then Q.qmin 1 (base + 0.3) else base

/-- The completeness section of `calculateEnhancedConfidence` (per-field
bonuses plus the base 0.2). -/
def completenessScoreOf (person : Option Person) : Q :=
  (match person with
   | some p =>
     (if 1 < p.emails.length then (0.1 : Q) else 0)
     + (if isTruthyStr p.title then 0.2 else 0)
     + (if isTruthyStr p.company_id then 0.2 else 0)
     + (if isTruthyStr p.linkedin_url then 0.15 else 0)
     + (if 0 < p.slack_handles.length then 0.1 else 0)
     + (if 0 < p.notable_facts.length then 0.15 else 0)
     + (if 0 < p.aliases.length then 0.1 else 0)
   | none => 0) + 0.2

/-- The freshness section of `calculateEnhancedConfidence` (before the final
clamp to `[0, 1]`). -/
def freshnessScoreOf (signals : ConfidenceSignals) : Q :=
  0.5
  + (if (0.8 : Q) < signals.timeDecay then 0.3
     else if (0.5 : Q) < signals.timeDecay then 0.2
     else if signals.timeDecay < (0.2 : Q) then -(0.2 : Q) else 0)
  + (if 5 < signals.interactionHistory then 0.2
     else if 1 < signals.interactionHistory then 0.1 else 0)

/-- The reliability section of `calculateEnhancedConfidence` (before the final
clamp to `[0, 1]`). -/
def reliabilityScoreOf (signals : ConfidenceSignals) : Q :=
  0.4
  + (if signals.manualVerification then 0.4 else 0)
  + (if signals.emailMatch then 0.3 else 0)
  + (if 0 < signals.interactionHistory then 0.2 else 0)
  + (if signals.contextualClues.companyMatch ∧ signals.domainMatch then 0.1 else 0)
  + (if ¬signals.emailMatch ∧ signals.nameMatchScore < (0.7 : Q) then -(0.2 : Q) else 0)

/-- The factor strings, in push order. -/
def factorsOf (signals : ConfidenceSignals) (person : Option Person) : List String :=
  (if signals.emailMatch then ["Exact email match"]
   else if signals.domainMatch then ["Same email domain"] else [])
  ++ (if (0.9 : Q) < signals.nameMatchScore then ["Exact name match"]
      else if (0.7 : Q) < signals.nameMatchScore then ["Strong name similarity"]
      else if (0.5 : Q) < signals.nameMatchScore then ["Partial name match"] else [])
  ++ (if signals.aliasMatch then ["Known alias match"] else [])
  ++ (if signals.contextualClues.titleMatch then ["Job title matches"] else [])
  ++ (if signals.contextualClues.companyMatch then ["Company context matches"] else [])
  ++ (if signals.contextualClues.slackHandleMatch then ["Slack handle matches"] else [])
  ++ (if signals.manualVerification then ["Manually verified"] else [])
  ++ (match person with
      | some p =>
        (if 1 < p.emails.length then ["Multiple email addresses"] else [])
        ++ (if isTruthyStr p.title then ["Job title known"] else [])
        ++ (if isTruthyStr p.company_id then ["Company affiliation"] else [])
        ++ (if isTruthyStr p.linkedin_url then ["LinkedIn profile"] else [])
        ++ (if 0 < p.slack_handles.length then ["Slack handle(s)"] else [])
        ++ (if 0 < p.notable_facts.length then ["Notable facts recorded"] else [])
        ++ (if 0 < p.aliases.length then ["Known aliases"] else [])
      | none => [])
  ++ (if (0.8 : Q) < signals.timeDecay then ["Recent interaction"]
      else if (0.5 : Q) < signals.timeDecay then ["Moderately recent activity"] else [])
  ++ (if 5 < signals.interactionHistory then ["Strong interaction history"]
      else if 1 < signals.interactionHistory then ["Some interaction history"] else [])
  ++ (if signals.manualVerification then ["Human verified"] else [])
  ++ (if signals.emailMatch then ["Email verification"] else [])
  ++ (if 0 < signals.interactionHistory then ["Historical interactions"] else [])
  ++ (if signals.contextualClues.companyMatch ∧ signals.domainMatch then
        ["Company context verified"] else [])

/-- The risk-flag strings, in push order; the final-score flags compare the
unrounded weighted sum, as the source does. -/
def riskFlagsOf (signals : ConfidenceSignals) (finalScore : Q) : List String :=
  (if (0.9 : Q) < signals.nameMatchScore then []
   else if (0.7 : Q) < signals.nameMatchScore then []
   else if (0.5 : Q) < signals.nameMatchScore then
     (if signals.nameMatchScore < (0.6 : Q) then
        ["Low name similarity - verify manually"] else [])
   else [])
  ++ (if (0.8 : Q) < signals.timeDecay then []
      else if (0.5 : Q) < signals.timeDecay then []
      else if signals.timeDecay < (0.2 : Q) then ["Old data - may be outdated"] else [])
  ++ (if ¬signals.emailMatch ∧ signals.nameMatchScore < (0.7 : Q) then
        ["Weak identification signals"] else [])
  ++ (if finalScore < (0.3 : Q) then ["Very low confidence - review needed"]
      else if finalScore < (0.5 : Q) then ["Low confidence - verify if possible"] else [])

/-- Function `calculateEnhancedConfidence` of `confidenceScoring.ts`, assembled from
its four sections. -/
def calculateEnhancedConfidence (signals : ConfidenceSignals)
    (person : Option Person) : ConfidenceResult :=
  let identityB := Q.qmin 1 (identityScoreOf signals)
  let completenessB := Q.qmin 1 (completenessScoreOf person)
  let freshnessB := Q.qmin 1 (Q.qmax 0 (freshnessScoreOf signals))
  let reliabilityB := Q.qmin 1 (Q.qmax 0 (reliabilityScoreOf signals))
  let finalScore :=
    identityB * 0.4 + reliabilityB * 0.3 + completenessB * 0.2 + freshnessB * 0.1
  { finalScore := jsRound2 finalScore
    breakdown :=
      { identity := jsRound2 identityB
        completeness := jsRound2 completenessB
        freshness := jsRound2 freshnessB
        reliability := jsRound2 reliabilityB }
    factors := dedupKeepFirst [] (factorsOf signals person)
    riskFlags := dedupKeepFirst [] (riskFlagsOf signals finalScore) }

/-- Function `calculateTimeDecay` of `confidenceScoring.ts`, with the elapsed time
since the last interaction given in days. -/
def calculateTimeDecay (daysSince : Option Q) : Q :=
  match daysSince with
  | none => 0.3
  | some d =>
    if d ≤ 7 then 1.0
    else if d ≤ 30 then 0.8
    else if d ≤ 90 then 0.6
    else if d ≤ 180 then 0.4
    else if d ≤ 365 then 0.2
    else 0.1

/-- Function `isConfidenceSufficient` of `confidenceScoring.ts`. -/
def isConfidenceSufficient (score : Q) (useCase : String) : Bool :=
  let threshold : Q :=
    if useCase = "brief_generation" then 0.6
    else if useCase = "ai_analysis" then 0.5
    else if useCase = "contact_merge" then 0.8
    else 0.3
  threshold ≤ score

/-- The signal record of claim C3: email match and manual verification set,
everything else false or zero. -/
def c3Signals : ConfidenceSignals :=
  { emailMatch := true
    nameMatchScore := 0
    domainMatch := false
    aliasMatch := false
    interactionHistory := 0
    manualVerification := true
    timeDecay := 0
    contextualClues := ⟨false, false, false⟩ }

/-! ### The resolution orchestrator (`EnhancedEntityService`)

The SQL store is modelled by explicit row lists; `dbAvailable` says whether a
`db.query` call succeeds (a failing call behaves as the catch block at its
call site prescribes).  Row identifiers, which the database generates, are
modelled as opaque strings derived from a fresh counter. -/

structure AliasRow where
  id : String
  person_id : String
  alias_name : Option String := none
  alias_email : Option String := none
  context : String := "calendar"
  confidence : Q
  verified : Bool := false
  deriving Repr, DecidableEq

structure CompanyRow where
  id : String
  name : String
  domain : Option String := none
  description : Option String := none
  industry : Option String := none
  size_category : Option String := none
  notable_facts : List String := []
  company_type : String := "customer"
  website_url : Option String := none
  deriving Repr, DecidableEq

structure OverrideRow where
  id : String
  override_type : String := "alias_link"
  source_identifier : String
  target_person_id : Option String := none
  target_company_id : Option String := none
  reason : String := ""
  confidence : Q := 1
  created_at : Nat := 0
  deriving Repr, DecidableEq

structure Db where
  people : List Person
  aliases : List AliasRow
  companies : List CompanyRow
  overrides : List OverrideRow
  deriving Repr, DecidableEq

structure ServiceState where
  db : Db
  dbAvailable : Bool
  useDatabaseFallback : Bool
  personMemoryStore : List (String × Person)
  nextId : Nat
  today : Nat
  deriving Repr, DecidableEq

structure EntityResolutionResult where
  person : Option Person := none
  confidence : Q
  method : String
  created_new_entity : Bool := false
  deriving Repr, DecidableEq

structure CreatePersonData where
  name : String
  emails : List String
  company_id : Option String := none
  title : Option String := none
  slack_handles : List String := []
  linkedin_url : Option String := none
  notable_facts : List String := []
  aliases : List String := []
  confidence : Option Q := none
  person_type : String := "external"
  deriving Repr, DecidableEq

structure CreateCompanyData where
  name : String
  domain : Option String := none
  description : Option String := none
  industry : Option String := none
  size_category : Option String := none
  notable_facts : List String := []
  company_type : String := "customer"
  deriving Repr, DecidableEq

/-- Whether the second character list starts with the first. -/
def startsWithSeq : List Char → List Char → Bool
  | [], _ => true
  | _ :: _, [] => false
  | a :: as, b :: bs => a == b && startsWithSeq as bs

/-- JavaScript `String.prototype.includes`: contiguous substring test. -/
def containsSeq (sub : List Char) : List Char → Bool
  | [] => sub.isEmpty
  | b :: bs => startsWithSeq sub (b :: bs) || containsSeq sub bs

/-- JavaScript falsiness of an optional string (undefined or empty). -/
def isFalsyOpt : Option String → Bool
  | some s => s == ""
  | none => true

/-- The default `data.confidence || 0.50` (zero is falsy). -/
def confidenceOrHalf : Option Q → Q
  | some q => if q.qeq 0 then 0.50 else q
  | none => 0.50

/-- A database-generated row identifier (opaque; only freshness matters). -/
def dbId (n : Nat) : String := ⟨'d' :: List.replicate n 'x'⟩

/-- An in-memory identifier (`person_<timestamp>_<random>` in the source,
modelled by the fresh counter). -/
def memId (n : Nat) : String := ⟨'m' :: List.replicate n 'x'⟩

/-- Strict precedence in `ORDER BY last_interaction DESC NULLS LAST`. -/
def laterInteraction : Option Nat → Option Nat → Bool
  | some a, some b => b < a
  | some _, none => true
  | none, _ => false

/-- Strict precedence in `ORDER BY confidence DESC, last_interaction DESC
NULLS LAST` (full ties keep table order, which SQL leaves unspecified). -/
def betterPersonRow (p q : Person) : Bool :=
  if q.confidence < p.confidence then true
  else if p.confidence < q.confidence then false
  else laterInteraction p.last_interaction q.last_interaction

/-- First row of an ordered scan: the earliest listed row among the maxima of
the strict precedence `better`. -/
def pickFirstBy {α : Type} (better : α → α → Bool) (l : List α) : Option α :=
  l.foldl (fun acc x =>
    match acc with
    | none => some x
    | some a => if better x a then some x else some a) none

/-- Stable insertion for an `ORDER BY` scan: an incoming row goes after every
already-placed row it does not strictly precede. -/
def insertPersonSorted (p : Person) : List Person → List Person
  | [] => [p]
  | q :: qs => if betterPersonRow p q then p :: q :: qs else q :: insertPersonSorted p qs

def sortPeopleRows (l : List Person) : List Person :=
  l.foldl (fun acc p => insertPersonSorted p acc) []

/-- JavaScript `Map.prototype.set` on the in-memory person store. -/
def memSet : List (String × Person) → String → Person → List (String × Person)
  | [], k, v => [(k, v)]
  | (k', v') :: rest, k, v =>
    if k' == k then (k, v) :: rest else (k', v') :: memSet rest k v

/-- The override lookup of `checkManualOverride`: rows whose
`source_identifier` equals the email, or the display name when supplied,
ordered by `created_at DESC`, first row only. -/
def findOverrideRow (db : Db) (email : String) (displayName : Option String) :
    Option OverrideRow :=
  pickFirstBy (fun o o' => o'.created_at < o.created_at)
    (db.overrides.filter fun o =>
      o.source_identifier == email ||
        (match displayName with
         | some d => o.source_identifier == d
         | none => false))

/-- Method `findPersonById` (read-only; its catch swallows a failure as null). -/
def findPersonById (st : ServiceState) (pid : String) : Option Person :=
  if ¬ st.useDatabaseFallback then none
  else if ¬ st.dbAvailable then none
  else st.db.people.find? (fun p => p.id == pid)

/-- Method `findTribeCompany` (read-only): internal companies or names containing
"tribe" case-insensitively, ordered by `company_type`, first row only. -/
def findTribeCompany (st : ServiceState) : Option CompanyRow :=
  if ¬ st.useDatabaseFallback then none
  else if ¬ st.dbAvailable then none
  else
    pickFirstBy (fun c c' => c.company_type < c'.company_type)
      (st.db.companies.filter fun c =>
        c.company_type == "internal" ||
          (containsSeq "tribe".data (jsToLower c.name).data))

/-- Method `findPersonByEmail`: active people whose email array contains the
lowercased argument, best row by confidence then recency.  A store failure is
the one read whose catch flips the process-wide fallback flag. -/
def findPersonByEmail (st : ServiceState) (email : String) :
    Option Person × ServiceState :=
  if ¬ st.useDatabaseFallback then (none, st)
  else if ¬ st.dbAvailable then (none, { st with useDatabaseFallback := false })
  else
    (pickFirstBy betterPersonRow (st.db.people.filter fun p =>
      p.emails.contains (jsToLower email) && p.entity_status == "active"), st)

/-- Method `findCompanyByDomain` (its catch returns null without flipping). -/
def findCompanyByDomain (st : ServiceState) (domain : String) : Option CompanyRow :=
  if ¬ st.useDatabaseFallback then none
  else if ¬ st.dbAvailable then none
  else st.db.companies.find? (fun c => c.domain == some (jsToLower domain))

/-- Method `updatePersonInteraction` (its catch only logs). -/
def updatePersonInteraction (st : ServiceState) (pid : String) : ServiceState :=
  if ¬ st.useDatabaseFallback then st
  else if ¬ st.dbAvailable then st
  else
    { st with db := { st.db with people := st.db.people.map fun p =>
        if p.id == pid then
          { p with last_interaction := some st.today,
                   interaction_count := p.interaction_count + 1 }
        else p } }

/-- Method `checkManualOverride` (read-only; `parseFloat(confidence) || 1.0` makes a
zero stored confidence fall back to 1). -/
def checkManualOverride (st : ServiceState) (email : String)
    (displayName : Option String) : Option EntityResolutionResult :=
  if ¬ st.useDatabaseFallback then none
  else if ¬ st.dbAvailable then none
  else
    match findOverrideRow st.db email displayName with
    | none => none
    | some row =>
      match row.target_person_id with
      | none => none
      | some pid =>
        match findPersonById st pid with
        | none => none
        | some p =>
          some { person := some p
                 confidence := if row.confidence.qeq 0 then 1 else row.confidence
                 method := "manual_override" }

/-- The in-memory branch of `createPerson`. -/
def createPersonMemory (st : ServiceState) (data : CreatePersonData) :
    Person × ServiceState :=
  let p : Person :=
    { id := memId st.nextId
      name := data.name
      emails := data.emails
      company_id := data.company_id
      title := data.title
      slack_handles := data.slack_handles
      linkedin_url := data.linkedin_url
      notable_facts := data.notable_facts
      aliases := data.aliases
      confidence := confidenceOrHalf data.confidence
      last_interaction := none
      interaction_count := 0
      person_type := data.person_type
      entity_status := "active"
      fuzzy_name_tokens := [] }
  (p, { st with personMemoryStore := memSet st.personMemoryStore p.id p
                nextId := st.nextId + 1 })

/-- Method `createPerson`: insert into the database when available; on a failed
insert flip the fallback flag and write to the memory store instead. -/
def createPerson (st : ServiceState) (data : CreatePersonData) :
    Person × ServiceState :=
  if st.useDatabaseFallback then
    if st.dbAvailable then
      let p : Person :=
        { id := dbId st.nextId
          name := data.name
          emails := data.emails
          company_id := data.company_id
          title := data.title
          slack_handles := data.slack_handles
          linkedin_url := data.linkedin_url
          notable_facts := data.notable_facts
          aliases := data.aliases
          confidence := confidenceOrHalf data.confidence
          last_interaction := none
          interaction_count := 0
          person_type := data.person_type
          entity_status := "active"
          fuzzy_name_tokens := generateFuzzyTokens data.name }
      (p, { st with db := { st.db with people := st.db.people ++ [p] }
                    nextId := st.nextId + 1 })
    else createPersonMemory { st with useDatabaseFallback := false } data
  else createPersonMemory st data

/-- Method `createCompany`: throws when the fallback flag is down, and rethrows a
failed insert. -/
def createCompany (st : ServiceState) (data : CreateCompanyData) :
    Except String (CompanyRow × ServiceState) :=
  if ¬ st.useDatabaseFallback then .error "Database required for entity creation"
  else if ¬ st.dbAvailable then .error "insert failed"
  else
    let c : CompanyRow :=
      { id := dbId st.nextId
        name := data.name
        domain := data.domain
        description := data.description
        industry := data.industry
        size_category := data.size_category
        notable_facts := data.notable_facts
        company_type := data.company_type
        website_url := data.domain.map (fun d => "https://" ++ d) }
    .ok (c, { st with db := { st.db with companies := st.db.companies ++ [c] }
                      nextId := st.nextId + 1 })

/-- Method `createAliasRecord`: idempotent alias learning — skipped when a row for
the same person already carries the alias name or the alias email (SQL `=`
against NULL never matches). -/
def createAliasRecord (st : ServiceState) (personId : String)
    (aliasName aliasEmail : Option String) (context : String) (confidence : Q) :
    ServiceState :=
  if ¬ st.useDatabaseFallback || (isFalsyOpt aliasName && isFalsyOpt aliasEmail) then st
  else if ¬ st.dbAvailable then st
  else
    let exists_ := st.db.aliases.any fun a =>
      a.person_id == personId &&
        ((match aliasName with
          | some an => a.alias_name == some an
          | none => false) ||
         (match aliasEmail with
          | some ae => a.alias_email == some ae
          | none => false))
    if exists_ then st
    else
      { st with db := { st.db with aliases := st.db.aliases ++
          [{ id := dbId st.nextId
             person_id := personId
             alias_name := aliasName
             alias_email := aliasEmail
             context := context
             confidence := confidence }] }
                nextId := st.nextId + 1 }

/-- One row of the fuzzy-matching query as a match candidate: primary email,
and alias names, secondary emails and alias emails as aliases (the DISTINCT
of the SQL aggregation is dropped: the matcher takes maxima, so duplicates
and order are immaterial). -/
def candidateOfRow (aliasRows : List AliasRow) (p : Person) : MatchCandidate :=
  { id := p.id
    name := p.name
    email := p.emails.head?
    aliases := (((aliasRows.filter fun a => a.person_id == p.id).filterMap
        (fun a => a.alias_name)) ++
      p.emails.drop 1 ++
      ((aliasRows.filter fun a => a.person_id == p.id).filterMap
        (fun a => a.alias_email))).filter (fun s => s ≠ "")
    confidence := p.confidence }

/-- Method `performFuzzyMatching`: all active people (with aliases) as candidates,
threshold 0.7; on a match, refresh the interaction and learn the alias. -/
def performFuzzyMatching (st : ServiceState) (email : String)
    (displayName : Option String) : Option EntityResolutionResult × ServiceState :=
  if ¬ st.useDatabaseFallback || isFalsyOpt displayName then (none, st)
  else if ¬ st.dbAvailable then (none, st)
  else
    let rows := sortPeopleRows (st.db.people.filter fun p => p.entity_status == "active")
    if rows.isEmpty then (none, st)
    else
      let candidates := rows.map (candidateOfRow st.db.aliases)
      let matchList := findBestMatches
        { email := some email, displayName := displayName } candidates 0.7
      match matchList with
      | [] => (none, st)
      | best :: _ =>
        match findPersonById st best.candidate.id with
        | none => (none, st)
        | some person =>
          let st1 := updatePersonInteraction st person.id
          let st2 := createAliasRecord st1 person.id displayName (some email)
            "calendar" best.score
          (some { person := some person
                  confidence := best.score
                  method := if best.matchType == "alias" then "alias_match"
                            else "fuzzy_name" }, st2)

/-- Method `extractNameFromEmail`: title-case the local part, dot-separated parts
becoming words. -/
def extractNameFromEmail (email : String) : String :=
  let localPart := (splitSepStr '@' email).headD ""
  if localPart.data.contains '.' then
    String.intercalate " " ((splitSepStr '.' localPart).map capitalizeFirst)
  else capitalizeFirst localPart

/-- Method `resolveByCompanyDomain`: reject personal domains; link to an existing
company with confidence 0.75, or create company and person with confidence
0.7 when the company is new.  The catch around the body turns a createCompany
throw into null. -/
def resolveByCompanyDomain (st : ServiceState) (email : String)
    (displayName : Option String) : Option EntityResolutionResult × ServiceState :=
  match (splitSepStr '@' email)[1]? with
  | none => (none, st)
  | some ed =>
    if ed = "" then (none, st)
    else if personalDomains.contains (jsToLower ed) then (none, st)
    else
      match findCompanyByDomain st ed with
      | none =>
        match extractCompanyFromEmailDomain email with
        | some inferredName =>
          match createCompany st
              { name := inferredName
                domain := some ed
                company_type := "customer"
                description := some ("Auto-created from email domain: " ++ ed) } with
          | .error _ => (none, st)
          | .ok (newCompany, st1) =>
            let pr := createPerson st1
              { name := orElseStr displayName (extractNameFromEmail email)
                emails := [email]
                company_id := some newCompany.id
                person_type := "external"
                confidence := some 0.7 }
            (some { person := some pr.1
                    confidence := 0.7
                    method := "domain_match"
                    created_new_entity := true }, pr.2)
        | none => (none, st)
      | some company =>
        let pr := createPerson st
          { name := orElseStr displayName (extractNameFromEmail email)
            emails := [email]
            company_id := some company.id
            person_type := "external"
            confidence := some 0.75 }
        (some { person := some pr.1
                confidence := 0.75
                method := "domain_match"
                created_new_entity := true }, pr.2)

/-- Method `createSmartNewPerson`: internal classification for domains containing
"tribe" (confidence 0.8, linked to the internal company when found), external
with confidence 0.25 otherwise.  Its catch is unreachable here because
`createPerson` always succeeds by falling back to the memory store. -/
def createSmartNewPerson (st : ServiceState) (email : String)
    (displayName : Option String) : EntityResolutionResult × ServiceState :=
  let name := orElseStr displayName (extractNameFromEmail email)
  let isTribe : Bool :=
    match (splitSepStr '@' email).get? 1 with
    | some ed => ed != "" && containsSeq "tribe".data (jsToLower ed).data
    | none => false
  if isTribe then
    let companyId := (findTribeCompany st).map (fun c => c.id)
    let pr := createPerson st
      { name := name
        emails := [email]
        company_id := companyId
        person_type := "internal"
        confidence := some 0.8 }
    ({ person := some pr.1
       confidence := 0.8
       method := "internal_inference"
       created_new_entity := true }, pr.2)
  else
    let pr := createPerson st
      { name := name
        emails := [email]
        company_id := none
        person_type := "external"
        confidence := some 0.25 }
    ({ person := some pr.1
       confidence := 0.25
       method := "unresolved"
       created_new_entity := true }, pr.2)

/-- The body of `resolveAttendee` after the email has been normalized:
override check, exact email match, fuzzy match, domain inference, then
smart creation. -/
def resolveAttendeeClean (st : ServiceState) (cleanEmail : String)
    (displayName : Option String) : EntityResolutionResult × ServiceState :=
  match checkManualOverride st cleanEmail displayName with
  | some r => (r, st)
  | none =>
    match findPersonByEmail st cleanEmail with
    | (some exactMatch, st2) =>
      let st3 := updatePersonInteraction st2 exactMatch.id
      ({ person := some exactMatch
         confidence := exactMatch.confidence
         method := "exact_email" }, st3)
    | (none, st2) =>
      match performFuzzyMatching st2 cleanEmail displayName with
      | (some r, st3) => (r, st3)
      | (none, st3) =>
        match resolveByCompanyDomain st3 cleanEmail displayName with
        | (some r, st4) => (r, st4)
        | (none, st4) => createSmartNewPerson st4 cleanEmail displayName

/-- Method `resolveAttendee`, the public entry point: lowercase and trim the email,
then run the resolution chain. -/
def resolveAttendee (st : ServiceState) (email : String)
    (displayName : Option String) : EntityResolutionResult × ServiceState :=
  resolveAttendeeClean st (jsTrim (jsToLower email)) displayName

/-- A fresh service state over an empty, available store. -/
def emptyState : ServiceState :=
  { db := { people := [], aliases := [], companies := [], overrides := [] }
    dbAvailable := true
    useDatabaseFallback := true
    personMemoryStore := []
    nextId := 0
    today := 0 }

/-- A store that already has a Company for `insightpartners.com`. -/
def c1CompanyState : ServiceState :=
  { emptyState with db := { emptyState.db with companies :=
      [{ id := "c0", name := "Insight Partners", domain := some "insightpartners.com" }] } }

/-- A state whose store is unavailable from the start. -/
def degradedState : ServiceState := { emptyState with dbAvailable := false }

/-- A store holding one Person, Alex Thompson with email alex@scalevp.com. -/
def alexState : ServiceState :=
  { emptyState with db := { emptyState.db with people :=
      [{ id := "alex1", name := "Alex Thompson", emails := ["alex@scalevp.com"],
         confidence := Q.mk' 9 10 }] } }

/-! ## Theorems -/

theorem Q.mk'_den_pos (n d : ℤ) : 0 < (Q.mk' n d).den := by
  unfold Q.mk'
  split
  · exact Nat.one_pos
  · split <;> simp only [] <;> omega

theorem Q.add_den_pos (a b : Q) : 0 < (a + b).den := Q.mk'_den_pos _ _

theorem Q.sub_den_pos (a b : Q) : 0 < (a - b).den := Q.mk'_den_pos _ _

theorem Q.mul_den_pos (a b : Q) : 0 < (a * b).den := Q.mk'_den_pos _ _

theorem Q.div_den_pos (a b : Q) : 0 < (a / b).den := Q.mk'_den_pos _ _

theorem Q.toRat_mk' (n d : ℤ) (hd : d ≠ 0) :
    (Q.mk' n d).toRat = (n : ℚ) / (d : ℚ) := by
  unfold Q.mk' Q.toRat
  rw [if_neg hd]
  split
  · next hlt =>
    have h1 : ((-d).toNat : ℤ) = -d := Int.toNat_of_nonneg (by omega)
    simp only []
    rw [show (((-d).toNat : ℕ) : ℚ) = ((((-d).toNat : ℤ)) : ℚ) by push_cast; ring, h1]
    push_cast
    rw [neg_div_neg_eq]
  · next hge =>
    have h1 : (d.toNat : ℤ) = d := Int.toNat_of_nonneg (by omega)
    simp only []
    rw [show ((d.toNat : ℕ) : ℚ) = (((d.toNat : ℤ)) : ℚ) by push_cast; ring, h1]

theorem Q.le_toRat {a b : Q} (ha : 0 < a.den) (hb : 0 < b.den) :
    a ≤ b ↔ a.toRat ≤ b.toRat := by
  unfold Q.toRat
  have ha' : (0 : ℚ) < (a.den : ℚ) := by exact_mod_cast ha
  have hb' : (0 : ℚ) < (b.den : ℚ) := by exact_mod_cast hb
  rw [div_le_div_iff₀ ha' hb']
  constructor
  · intro h
    have h' : ((a.num * b.den : ℤ) : ℚ) ≤ ((b.num * a.den : ℤ) : ℚ) := by exact_mod_cast h
    push_cast at h'
    linarith
  · intro h
    have h' : ((a.num : ℚ) * (b.den : ℚ)) ≤ ((b.num : ℚ) * (a.den : ℚ)) := by linarith
    exact_mod_cast h'

theorem Q.lt_toRat {a b : Q} (ha : 0 < a.den) (hb : 0 < b.den) :
    a < b ↔ a.toRat < b.toRat := by
  unfold Q.toRat
  have ha' : (0 : ℚ) < (a.den : ℚ) := by exact_mod_cast ha
  have hb' : (0 : ℚ) < (b.den : ℚ) := by exact_mod_cast hb
  rw [div_lt_div_iff₀ ha' hb']
  constructor
  · intro h
    have h' : ((a.num * b.den : ℤ) : ℚ) < ((b.num * a.den : ℤ) : ℚ) := by exact_mod_cast h
    push_cast at h'
    linarith
  · intro h
    have h' : ((a.num : ℚ) * (b.den : ℚ)) < ((b.num : ℚ) * (a.den : ℚ)) := by linarith
    exact_mod_cast h'

theorem Q.toRat_add (a b : Q) (ha : 0 < a.den) (hb : 0 < b.den) :
    (a + b).toRat = a.toRat + b.toRat := by
  show (Q.mk' (a.num * b.den + b.num * a.den) (a.den * b.den)).toRat = _
  rw [Q.toRat_mk' _ _ (by positivity)]
  unfold Q.toRat
  have ha' : (a.den : ℚ) ≠ 0 := by positivity
  have hb' : (b.den : ℚ) ≠ 0 := by positivity
  field_simp
  try push_cast
  try ring

theorem Q.toRat_sub (a b : Q) (ha : 0 < a.den) (hb : 0 < b.den) :
    (a - b).toRat = a.toRat - b.toRat := by
  show (Q.mk' (a.num * b.den - b.num * a.den) (a.den * b.den)).toRat = _
  rw [Q.toRat_mk' _ _ (by positivity)]
  unfold Q.toRat
  have ha' : (a.den : ℚ) ≠ 0 := by positivity
  have hb' : (b.den : ℚ) ≠ 0 := by positivity
  field_simp
  try push_cast
  try ring

theorem Q.toRat_mul (a b : Q) (ha : 0 < a.den) (hb : 0 < b.den) :
    (a * b).toRat = a.toRat * b.toRat := by
  show (Q.mk' (a.num * b.num) (a.den * b.den)).toRat = _
  rw [Q.toRat_mk' _ _ (by positivity)]
  unfold Q.toRat
  push_cast
  rw [div_mul_div_comm]

theorem Q.toRat_div (a b : Q) (ha : 0 < a.den) (hb : 0 < b.den) (hbn : b.num ≠ 0) :
    (a / b).toRat = a.toRat / b.toRat := by
  show (Q.mk' (a.num * b.den) (a.den * b.num)).toRat = _
  have hd : (a.den : ℤ) * b.num ≠ 0 := by
    intro h
    rcases mul_eq_zero.mp h with h | h
    · omega
    · exact hbn h
  rw [Q.toRat_mk' _ _ hd]
  unfold Q.toRat
  have ha' : (a.den : ℚ) ≠ 0 := by positivity
  have hb' : (b.den : ℚ) ≠ 0 := by positivity
  have hbn' : (b.num : ℚ) ≠ 0 := by exact_mod_cast hbn
  field_simp
  try push_cast
  try ring

theorem Q.toRat_ofNat (n : ℕ) : (OfNat.ofNat n : Q).toRat = n := by
  unfold Q.toRat
  show ((n : ℤ) : ℚ) / ((1 : ℕ) : ℚ) = n
  push_cast
  ring

theorem Q.toRat_zero : (0 : Q).toRat = 0 := by
  rw [Q.toRat_ofNat 0]
  norm_num

theorem Q.toRat_one : (1 : Q).toRat = 1 := by
  rw [Q.toRat_ofNat 1]
  norm_num

theorem Q.qmin_den_pos {a b : Q} (ha : 0 < a.den) (hb : 0 < b.den) :
    0 < (Q.qmin a b).den := by
  unfold Q.qmin
  split <;> assumption

theorem Q.qmax_den_pos {a b : Q} (ha : 0 < a.den) (hb : 0 < b.den) :
    0 < (Q.qmax a b).den := by
  unfold Q.qmax
  split <;> assumption

theorem Q.qeq_toRat {a b : Q} (ha : 0 < a.den) (hb : 0 < b.den) :
    a.qeq b ↔ a.toRat = b.toRat := by
  unfold Q.qeq Q.toRat
  have ha' : (a.den : ℚ) ≠ 0 := by positivity
  have hb' : (b.den : ℚ) ≠ 0 := by positivity
  rw [div_eq_div_iff ha' hb']
  constructor
  · intro h
    have h' : ((a.num * b.den : ℤ) : ℚ) = ((b.num * a.den : ℤ) : ℚ) := by exact_mod_cast h
    push_cast at h'
    linarith
  · intro h
    have h' : ((a.num : ℚ) * (b.den : ℚ)) = ((b.num : ℚ) * (a.den : ℚ)) := by linarith
    exact_mod_cast h'

/-- Value of a positive decimal literal of `Q`. -/
theorem Q.toRat_lit (m e : ℕ) :
    (OfScientific.ofScientific m true e : Q).toRat = (m : ℚ) / 10 ^ e := by
  show (Q.mk' (m : ℤ) ((10 ^ e : ℕ) : ℤ)).toRat = _
  rw [Q.toRat_mk' _ _ (by positivity)]
  push_cast
  ring_nf

/-- Transfer of a concrete value equation: if `x` evaluates (by `decide`) to
the same value as a decimal literal, its denoted rational is that literal. -/
theorem Q.toRat_eval {x : Q} (m e : ℕ) (hx : 0 < x.den)
    (h : x.qeq (OfScientific.ofScientific m true e : Q)) :
    x.toRat = (m : ℚ) / 10 ^ e := by
  rw [← Q.toRat_lit m e]
  exact (Q.qeq_toRat hx (Q.mk'_den_pos _ _)).mp h

/-! ### Claim C7: string similarity edge cases -/

/-- Claim C7, counterexample: the code scores two empty strings 0, not 1.0 —
the falsy guard `if (!str1 || !str2) return 0` fires before the
`maxLength === 0` divide-by-zero guard, which is unreachable. -/
theorem C7_both_empty_scores_zero : (stringSimilarity "" "").toRat ≠ 1 := by
  rw [Q.toRat_eval 0 0 (by decide) (by decide)]
  norm_num

/-- Claim C7 (amended): identical strings score 1.0 when non-empty; if either
input is the empty string — including both empty — the score is 0.  The
both-empty-is-1.0 divide-by-zero guard in the source is dead code. -/
theorem C7_similarity_amended (a b : String) :
    (a ≠ "" → (stringSimilarity a a).toRat = 1) ∧
    ((a = "" ∨ b = "") → (stringSimilarity a b).toRat = 0) := by
  constructor
  · intro h
    have hs : stringSimilarity a a = 1 := by
      unfold stringSimilarity
      rw [if_neg (by simp [h]), if_pos rfl]
    rw [hs]
    exact Q.toRat_ofNat 1
  · intro h
    have hs : stringSimilarity a b = 0 := by
      unfold stringSimilarity
      rw [if_pos h]
    rw [hs]
    exact Q.toRat_ofNat 0

/-- Witness for the amended C7 at concrete inputs. -/
theorem C7_similarity_amended_witness :
    (stringSimilarity "smith" "smith").toRat = 1 ∧ (stringSimilarity "" "x").toRat = 0 :=
  ⟨(C7_similarity_amended "smith" "x").1 (by decide),
   (C7_similarity_amended "" "x").2 (Or.inl rfl)⟩

/-! ### Claim C3: email match plus manual verification -/

/-- Claim C3, counterexample: with only email match and manual verification
the identity facet is `min(1, 0.5 + 0.3) = 0.8`, not 1.0, and the final
weighted score is 0.69 (below 0.7): identity 0.8, reliability capped at 1.0,
completeness 0.2, freshness 0.3 give `0.32 + 0.3 + 0.04 + 0.03 = 0.69`. -/
theorem C3_email_manual_counterexample :
    ¬ ((calculateEnhancedConfidence c3Signals none).breakdown.identity.toRat = 1 ∧
       (0.7 : ℚ) ≤ (calculateEnhancedConfidence c3Signals none).finalScore.toRat) := by
  rw [Q.toRat_eval 8 1 (by decide) (by decide), Q.toRat_eval 69 2 (by decide) (by decide)]
  norm_num

/-- Claim C3 (amended): with signals emailMatch and manualVerification true,
all other signals false or zero and no person record, the identity facet of
the result equals 0.8 (the 0.5 email bonus plus the 0.3 manual-verification
bonus, the cap at 1.0 not reached) and the final weighted score equals 0.69,
just below 0.7. -/
theorem C3_email_manual_amended :
    (calculateEnhancedConfidence c3Signals none).breakdown.identity.toRat = 0.8 ∧
    (calculateEnhancedConfidence c3Signals none).finalScore.toRat = 0.69 := by
  rw [Q.toRat_eval 8 1 (by decide) (by decide), Q.toRat_eval 69 2 (by decide) (by decide)]
  norm_num

/-! ### Claim C8: all outputs of the scorer lie in [0, 1] -/

lemma identityB_props (signals : ConfidenceSignals) :
    0 ≤ Q.qmin 1 (identityScoreOf signals) ∧
      Q.qmin 1 (identityScoreOf signals) ≤ 1 ∧
      0 < (Q.qmin 1 (identityScoreOf signals)).den := by
  unfold identityScoreOf
  repeat' split
  all_goals decide

lemma completenessB_props (person : Option Person) :
    0 ≤ Q.qmin 1 (completenessScoreOf person) ∧
      Q.qmin 1 (completenessScoreOf person) ≤ 1 ∧
      0 < (Q.qmin 1 (completenessScoreOf person)).den := by
  unfold completenessScoreOf
  cases person with
  | none => decide
  | some p =>
    repeat' split
    all_goals decide

lemma freshnessB_props (signals : ConfidenceSignals) :
    0 ≤ Q.qmin 1 (Q.qmax 0 (freshnessScoreOf signals)) ∧
      Q.qmin 1 (Q.qmax 0 (freshnessScoreOf signals)) ≤ 1 ∧
      0 < (Q.qmin 1 (Q.qmax 0 (freshnessScoreOf signals))).den := by
  unfold freshnessScoreOf
  repeat' split
  all_goals decide

lemma reliabilityB_props (signals : ConfidenceSignals) :
    0 ≤ Q.qmin 1 (Q.qmax 0 (reliabilityScoreOf signals)) ∧
      Q.qmin 1 (Q.qmax 0 (reliabilityScoreOf signals)) ≤ 1 ∧
      0 < (Q.qmin 1 (Q.qmax 0 (reliabilityScoreOf signals))).den := by
  unfold reliabilityScoreOf
  repeat' split
  all_goals decide

/-- Bounds transferred to the denoted rational. -/
lemma qB_toRat_bounds {x : Q} (h : 0 ≤ x ∧ x ≤ 1 ∧ 0 < x.den) :
    0 ≤ x.toRat ∧ x.toRat ≤ 1 := by
  obtain ⟨h0, h1, hd⟩ := h
  constructor
  · have := (Q.le_toRat (a := 0) (b := x) (by decide) hd).mp h0
    rwa [Q.toRat_zero] at this
  · have := (Q.le_toRat (a := x) (b := 1) hd (by decide)).mp h1
    rwa [Q.toRat_one] at this

lemma jsRound2_toRat_bounds {x : Q} (hd : 0 < x.den)
    (h0 : 0 ≤ x.toRat) (h1 : x.toRat ≤ 1) :
    0 ≤ (jsRound2 x).toRat ∧ (jsRound2 x).toRat ≤ 1 := by
  unfold jsRound2
  set y := x * 100 + Q.mk' 1 2 with hy
  have hyd : 0 < y.den := Q.add_den_pos _ _
  have hyval : y.toRat = x.toRat * 100 + 1 / 2 := by
    rw [hy, Q.toRat_add _ _ (Q.mul_den_pos _ _) (Q.mk'_den_pos _ _),
      Q.toRat_mul _ _ hd (by decide), Q.toRat_mk' _ _ (by norm_num),
      Q.toRat_ofNat 100]
    norm_num
  have hy0 : 0 ≤ y.toRat := by rw [hyval]; linarith
  have hy1 : y.toRat ≤ 201 / 2 := by rw [hyval]; linarith
  have hnum0 : 0 ≤ y.num := by
    by_contra hneg
    push_neg at hneg
    have : y.toRat < 0 := by
      unfold Q.toRat
      apply div_neg_of_neg_of_pos
      · exact_mod_cast hneg
      · exact_mod_cast hyd
    linarith
  have hfl0 : 0 ≤ Q.floor y := Int.ediv_nonneg hnum0 (by exact_mod_cast Nat.le_of_lt hyd)
  have hfl1 : Q.floor y ≤ 100 := by
    have hlt : y.num < 101 * (y.den : ℤ) := by
      have h2 : (y.num : ℚ) ≤ 201 / 2 * (y.den : ℚ) := by
        have hdpos : (0 : ℚ) < (y.den : ℚ) := by exact_mod_cast hyd
        have := (div_le_iff₀ hdpos).mp hy1
        simpa [Q.toRat] using this
      have h3 : (y.num : ℚ) < 101 * (y.den : ℚ) := by
        have hdpos : (0 : ℚ) < (y.den : ℚ) := by exact_mod_cast hyd
        nlinarith
      exact_mod_cast h3
    have hdz : ((y.den : ℤ)) ≠ 0 := by
      have := hyd
      omega
    have h1 := Int.ediv_add_emod y.num (y.den : ℤ)
    have h2 := Int.emod_nonneg y.num hdz
    have hdpos' : (0 : ℤ) < (y.den : ℤ) := by exact_mod_cast hyd
    unfold Q.floor
    rw [show Int.ediv y.num (y.den : ℤ) = y.num / (y.den : ℤ) from rfl]
    nlinarith
  rw [Q.toRat_mk' _ _ (by norm_num)]
  constructor
  · apply div_nonneg _ (by norm_num)
    exact_mod_cast hfl0
  · rw [div_le_one (by norm_num)]
    exact_mod_cast hfl1

/-- Claim C8: for every signal record (any rational name score and time
decay, any integer interaction count, any boolean flags) and any optional
person record, the final score and all four breakdown facets of the scorer
lie in `[0, 1]`. -/
theorem C8_confidence_scores_bounded (signals : ConfidenceSignals)
    (person : Option Person) :
    (0 ≤ (calculateEnhancedConfidence signals person).finalScore.toRat ∧
      (calculateEnhancedConfidence signals person).finalScore.toRat ≤ 1) ∧
    (0 ≤ (calculateEnhancedConfidence signals person).breakdown.identity.toRat ∧
      (calculateEnhancedConfidence signals person).breakdown.identity.toRat ≤ 1) ∧
    (0 ≤ (calculateEnhancedConfidence signals person).breakdown.completeness.toRat ∧
      (calculateEnhancedConfidence signals person).breakdown.completeness.toRat ≤ 1) ∧
    (0 ≤ (calculateEnhancedConfidence signals person).breakdown.freshness.toRat ∧
      (calculateEnhancedConfidence signals person).breakdown.freshness.toRat ≤ 1) ∧
    (0 ≤ (calculateEnhancedConfidence signals person).breakdown.reliability.toRat ∧
      (calculateEnhancedConfidence signals person).breakdown.reliability.toRat ≤ 1) := by
  have hi := identityB_props signals
  have hc := completenessB_props person
  have hf := freshnessB_props signals
  have hr := reliabilityB_props signals
  have hi' := qB_toRat_bounds hi
  have hc' := qB_toRat_bounds hc
  have hf' := qB_toRat_bounds hf
  have hr' := qB_toRat_bounds hr
  set iB := Q.qmin 1 (identityScoreOf signals) with hiB
  set cB := Q.qmin 1 (completenessScoreOf person) with hcB
  set fB := Q.qmin 1 (Q.qmax 0 (freshnessScoreOf signals)) with hfB
  set rB := Q.qmin 1 (Q.qmax 0 (reliabilityScoreOf signals)) with hrB
  have hfs : (iB * 0.4 + rB * 0.3 + cB * 0.2 + fB * 0.1).toRat =
      iB.toRat * (0.4 : Q).toRat + rB.toRat * (0.3 : Q).toRat +
        cB.toRat * (0.2 : Q).toRat + fB.toRat * (0.1 : Q).toRat := by
    rw [Q.toRat_add _ _ (Q.add_den_pos _ _) (Q.mul_den_pos _ _),
      Q.toRat_add _ _ (Q.add_den_pos _ _) (Q.mul_den_pos _ _),
      Q.toRat_add _ _ (Q.mul_den_pos _ _) (Q.mul_den_pos _ _),
      Q.toRat_mul _ _ hi.2.2 (by decide), Q.toRat_mul _ _ hr.2.2 (by decide),
      Q.toRat_mul _ _ hc.2.2 (by decide), Q.toRat_mul _ _ hf.2.2 (by decide)]
  have hlit4 : (0.4 : Q).toRat = 0.4 := by
    rw [show ((0.4 : Q)) = OfScientific.ofScientific 4 true 1 from rfl, Q.toRat_lit]
    norm_num
  have hlit3 : (0.3 : Q).toRat = 0.3 := by
    rw [show ((0.3 : Q)) = OfScientific.ofScientific 3 true 1 from rfl, Q.toRat_lit]
    norm_num
  have hlit2 : (0.2 : Q).toRat = 0.2 := by
    rw [show ((0.2 : Q)) = OfScientific.ofScientific 2 true 1 from rfl, Q.toRat_lit]
    norm_num
  have hlit1 : (0.1 : Q).toRat = 0.1 := by
    rw [show ((0.1 : Q)) = OfScientific.ofScientific 1 true 1 from rfl, Q.toRat_lit]
    norm_num
  have hfsden : 0 < (iB * 0.4 + rB * 0.3 + cB * 0.2 + fB * 0.1).den :=
    Q.add_den_pos _ _
  have hfs0 : 0 ≤ (iB * 0.4 + rB * 0.3 + cB * 0.2 + fB * 0.1).toRat := by
    rw [hfs, hlit4, hlit3, hlit2, hlit1]
    nlinarith [hi'.1, hr'.1, hc'.1, hf'.1]
  have hfs1 : (iB * 0.4 + rB * 0.3 + cB * 0.2 + fB * 0.1).toRat ≤ 1 := by
    rw [hfs, hlit4, hlit3, hlit2, hlit1]
    nlinarith [hi'.1, hi'.2, hr'.1, hr'.2, hc'.1, hc'.2, hf'.1, hf'.2]
  refine ⟨?_, ?_, ?_, ?_, ?_⟩
  · exact jsRound2_toRat_bounds hfsden hfs0 hfs1
  · exact jsRound2_toRat_bounds hi.2.2 hi'.1 hi'.2
  · exact jsRound2_toRat_bounds hc.2.2 hc'.1 hc'.2
  · exact jsRound2_toRat_bounds hf.2.2 hf'.1 hf'.2
  · exact jsRound2_toRat_bounds hr.2.2 hr'.1 hr'.2

/-! ### Claim C10: every returned fuzzy match scores between the threshold
and 1 -/

theorem Q.toRat_natCast (n : ℕ) : ((n : Q)).toRat = n := by
  unfold Q.toRat
  show ((n : ℤ) : ℚ) / ((1 : ℕ) : ℚ) = n
  push_cast
  ring

lemma stringSimilarity_props (a b : String) :
    0 < (stringSimilarity a b).den ∧ stringSimilarity a b ≤ 1 := by
  unfold stringSimilarity
  dsimp only
  split
  · exact ⟨by decide, by decide⟩
  · split
    · exact ⟨by decide, by decide⟩
    · split
      · exact ⟨by decide, by decide⟩
      · next h1 h2 hm =>
        refine ⟨Q.sub_den_pos _ _, ?_⟩
        set d := levenshteinDistance (jsToLower a) (jsToLower b) with hd
        set m := max a.data.length b.data.length with hm'
        have hdend : 0 < ((d : Q)).den := Nat.one_pos
        have hdenm : 0 < ((m : Q)).den := Nat.one_pos
        have hmnum : ((m : Q)).num ≠ 0 := by
          show ((m : ℤ)) ≠ 0
          exact_mod_cast hm
        rw [Q.le_toRat (Q.sub_den_pos _ _) (by decide), Q.toRat_one,
          Q.toRat_sub _ _ (by decide) (Q.div_den_pos _ _),
          Q.toRat_div _ _ hdend hdenm hmnum, Q.toRat_one,
          Q.toRat_natCast, Q.toRat_natCast]
        have h0 : (0 : ℚ) ≤ (d : ℚ) / (m : ℚ) := by positivity
        linarith

lemma foldl_qmax_le {l : List Q} {acc : Q}
    (hacc : 0 < acc.den ∧ acc ≤ 1) (hl : ∀ x ∈ l, 0 < x.den ∧ x ≤ 1) :
    0 < (l.foldl Q.qmax acc).den ∧ l.foldl Q.qmax acc ≤ 1 := by
  induction l generalizing acc with
  | nil => exact hacc
  | cons y ys ih =>
    apply ih
    · unfold Q.qmax
      split
      · exact hl y (List.mem_cons_self _ _)
      · exact hacc
    · intro x hx
      exact hl x (List.mem_cons_of_mem _ hx)

lemma calculateNameMatchScore_props (inputName candidateName : String)
    (candidateAliases : List String) :
    0 < (calculateNameMatchScore inputName candidateName candidateAliases).den ∧
      calculateNameMatchScore inputName candidateName candidateAliases ≤ 1 := by
  unfold calculateNameMatchScore
  dsimp only
  split
  · exact ⟨by decide, by decide⟩
  · split
    · exact ⟨by decide, by decide⟩
    · split
      · exact ⟨by decide, by decide⟩
      · have hbest :
            0 < ((((generateFuzzyTokens inputName).flatMap fun it =>
                (generateFuzzyTokens candidateName).map fun ct =>
                  stringSimilarity it ct) ++
              (candidateAliases.flatMap fun al =>
                (generateFuzzyTokens inputName).flatMap fun it =>
                  (generateFuzzyTokens al).map fun atk =>
                    stringSimilarity it atk)).foldl Q.qmax 0).den ∧
            (((generateFuzzyTokens inputName).flatMap fun it =>
                (generateFuzzyTokens candidateName).map fun ct =>
                  stringSimilarity it ct) ++
              (candidateAliases.flatMap fun al =>
                (generateFuzzyTokens inputName).flatMap fun it =>
                  (generateFuzzyTokens al).map fun atk =>
                    stringSimilarity it atk)).foldl Q.qmax 0 ≤ 1 := by
          apply foldl_qmax_le ⟨by decide, by decide⟩
          intro x hx
          rcases List.mem_append.mp hx with hx | hx
          · rcases List.mem_flatMap.mp hx with ⟨it, _, hx2⟩
            rcases List.mem_map.mp hx2 with ⟨ct, _, rfl⟩
            exact stringSimilarity_props it ct
          · rcases List.mem_flatMap.mp hx with ⟨al, _, hx2⟩
            rcases List.mem_flatMap.mp hx2 with ⟨it, _, hx3⟩
            rcases List.mem_map.mp hx3 with ⟨atk, _, rfl⟩
            exact stringSimilarity_props it atk
        split
        · split
          · next hboost =>
            unfold Q.qmax
            split
            · -- the structural boost: the average of two similarities ≤ 1
              set f := stringSimilarity
                ((splitWsRunsStr (jsTrim (jsToLower inputName))).headD "")
                ((splitWsRunsStr (jsTrim (jsToLower candidateName))).headD "") with hf
              set l := stringSimilarity
                ((splitWsRunsStr (jsTrim (jsToLower inputName))).getLastD "")
                ((splitWsRunsStr (jsTrim (jsToLower candidateName))).getLastD "") with hl
              have hfp := stringSimilarity_props
                ((splitWsRunsStr (jsTrim (jsToLower inputName))).headD "")
                ((splitWsRunsStr (jsTrim (jsToLower candidateName))).headD "")
              have hlp := stringSimilarity_props
                ((splitWsRunsStr (jsTrim (jsToLower inputName))).getLastD "")
                ((splitWsRunsStr (jsTrim (jsToLower candidateName))).getLastD "")
              refine ⟨Q.div_den_pos _ _, ?_⟩
              rw [Q.le_toRat (Q.div_den_pos _ _) (by decide), Q.toRat_one,
                Q.toRat_div _ _ (Q.add_den_pos _ _) (by decide) (by decide),
                Q.toRat_add _ _ hfp.1 hlp.1]
              have hf1 : f.toRat ≤ 1 := by
                have := (Q.le_toRat hfp.1 (by decide)).mp hfp.2
                rwa [Q.toRat_one] at this
              have hl1 : l.toRat ≤ 1 := by
                have := (Q.le_toRat hlp.1 (by decide)).mp hlp.2
                rwa [Q.toRat_one] at this
              have h2 : ((2 : Q)).toRat = 2 := Q.toRat_ofNat 2
              rw [h2]
              linarith
            · exact hbest
          · exact hbest
        · exact hbest

lemma calculateEmailDomainScore_props (email1 email2 : String) :
    0 < (calculateEmailDomainScore email1 email2).den ∧
      calculateEmailDomainScore email1 email2 ≤ 1 := by
  unfold calculateEmailDomainScore
  dsimp only
  split
  · exact ⟨by decide, by decide⟩
  · split
    · exact ⟨by decide, by decide⟩
    · split
      · exact ⟨by decide, by decide⟩
      · exact stringSimilarity_props _ _

lemma scoreEmailStage_props (inputEmail : String) (candidate : MatchCandidate) :
    0 < (scoreEmailStage inputEmail candidate).1.den ∧
      (scoreEmailStage inputEmail candidate).1 ≤ 1 := by
  unfold scoreEmailStage
  dsimp only
  split
  · next cem heq =>
    split
    · split
      · exact ⟨by decide, by decide⟩
      · split
        · have hds := calculateEmailDomainScore_props inputEmail cem
          constructor
          · exact Q.qmax_den_pos (by decide) (Q.mul_den_pos _ _)
          · unfold Q.qmax
            split
            · -- domainScore * 0.7 ≤ 1
              rw [Q.le_toRat (Q.mul_den_pos _ _) (by decide), Q.toRat_one,
                Q.toRat_mul _ _ hds.1 (by decide)]
              have hd1 : (calculateEmailDomainScore inputEmail cem).toRat ≤ 1 := by
                have := (Q.le_toRat hds.1 (by decide)).mp hds.2
                rwa [Q.toRat_one] at this
              have h07 : ((0.7 : Q)).toRat = 7 / 10 := by
                rw [show ((0.7 : Q)) = OfScientific.ofScientific 7 true 1 from rfl,
                  Q.toRat_lit]
                norm_num
              rw [h07]
              nlinarith
            · decide
        · exact ⟨by decide, by decide⟩
    · exact ⟨by decide, by decide⟩
  · exact ⟨by decide, by decide⟩

lemma scoreNameStage_props (inputName : String) (candidate : MatchCandidate)
    (s1 : Q × String × String) (h1 : 0 < s1.1.den ∧ s1.1 ≤ 1) :
    0 < (scoreNameStage inputName candidate s1).1.den ∧
      (scoreNameStage inputName candidate s1).1 ≤ 1 := by
  unfold scoreNameStage
  dsimp only
  have hname := calculateNameMatchScore_props inputName candidate.name candidate.aliases
  have hqm : 0 < (Q.qmax s1.1 0.95).den ∧ Q.qmax s1.1 0.95 ≤ 1 := by
    unfold Q.qmax
    split
    · exact ⟨by decide, by decide⟩
    · exact h1
  split
  · split
    · split
      · split
        · exact hname
        · exact hqm
      · split
        · exact hname
        · exact hqm
    · split
      · exact hname
      · exact h1
  · exact h1

lemma scoreCandidate_le_one (inputName inputEmail : String) (candidate : MatchCandidate) :
    0 < (scoreCandidate inputName inputEmail candidate).1.den ∧
      (scoreCandidate inputName inputEmail candidate).1 ≤ 1 :=
  scoreNameStage_props inputName candidate _
    (scoreEmailStage_props inputEmail candidate)

lemma mem_insertByScoreDesc {r x : FuzzyMatchResult} {l : List FuzzyMatchResult}
    (h : x ∈ insertByScoreDesc r l) : x = r ∨ x ∈ l := by
  induction l with
  | nil =>
    unfold insertByScoreDesc at h
    rcases List.mem_singleton.mp h with rfl
    exact Or.inl rfl
  | cons y ys ih =>
    unfold insertByScoreDesc at h
    split at h
    · rcases List.mem_cons.mp h with rfl | h
      · exact Or.inr (List.mem_cons_self _ _)
      · rcases ih h with h | h
        · exact Or.inl h
        · exact Or.inr (List.mem_cons_of_mem _ h)
    · rcases List.mem_cons.mp h with rfl | h
      · exact Or.inl rfl
      · exact Or.inr h

lemma mem_sortByScoreDesc {x : FuzzyMatchResult} {l : List FuzzyMatchResult}
    (h : x ∈ sortByScoreDesc l) : x ∈ l := by
  unfold sortByScoreDesc at h
  suffices hgen : ∀ (l : List FuzzyMatchResult) (acc : List FuzzyMatchResult),
      x ∈ l.foldl (fun acc r => insertByScoreDesc r acc) acc → x ∈ acc ∨ x ∈ l by
    rcases hgen l [] h with h | h
    · cases h
    · exact h
  intro l
  induction l with
  | nil => intro acc h; exact Or.inl h
  | cons y ys ih =>
    intro acc h
    rcases ih _ h with h | h
    · rcases mem_insertByScoreDesc h with rfl | h
      · exact Or.inr (List.mem_cons_self _ _)
      · exact Or.inl h
    · exact Or.inr (List.mem_cons_of_mem _ h)

/-- Claim C10: every match returned by `findBestMatches` has a score between
the caller-supplied threshold and 1. -/
theorem C10_findBestMatches_scores_within_threshold_and_one
    (input : MatchInput) (candidates : List MatchCandidate) (threshold : Q)
    (ht : 0 < threshold.den) (r : FuzzyMatchResult)
    (hr : r ∈ findBestMatches input candidates threshold) :
    threshold.toRat ≤ r.score.toRat ∧ r.score.toRat ≤ 1 := by
  unfold findBestMatches at hr
  try dsimp only at hr
  have hr' := mem_sortByScoreDesc hr
  rcases List.mem_filterMap.mp hr' with ⟨c, _, hc⟩
  try dsimp only at hc
  split at hc
  · next hth =>
    rcases Option.some_inj.mp hc with rfl
    have hprops := scoreCandidate_le_one
      (orElseStr input.displayName (orElseStr input.name ""))
      (orElseStr input.email "") c
    constructor
    · exact (Q.le_toRat ht hprops.1).mp hth
    · have := (Q.le_toRat hprops.1 (by decide)).mp hprops.2
      rwa [Q.toRat_one] at this
  · cases hc

/-! ### Normalization lemmas for `toLowerCase` and `trim` -/

lemma char_toNat_ofNat {n : ℕ} (h : n.isValidChar) : (Char.ofNat n).toNat = n := by
  rw [Char.ofNat, dif_pos h]
  rfl

lemma char_eq_of_toNat (a b : Char) (h : a.toNat = b.toNat) : a = b := by
  rw [← Char.ofNat_toNat a, h, Char.ofNat_toNat]

lemma beq_char_iff_toNat (c d : Char) : (c == d) = (c.toNat == d.toNat) := by
  by_cases h : c = d
  · subst h
    simp
  · have h2 : c.toNat ≠ d.toNat := fun hn => h (char_eq_of_toNat _ _ hn)
    simp [h, h2]

lemma jsToLowerChar_toNat (c : Char) :
    (jsToLowerChar c).toNat =
      if 65 ≤ c.toNat ∧ c.toNat ≤ 90 then c.toNat + 32 else c.toNat := by
  unfold jsToLowerChar
  split
  · next h => exact char_toNat_ofNat (Or.inl (by omega))
  · rfl

lemma jsToLowerChar_idem (c : Char) :
    jsToLowerChar (jsToLowerChar c) = jsToLowerChar c := by
  apply char_eq_of_toNat
  rw [jsToLowerChar_toNat, jsToLowerChar_toNat]
  split_ifs <;> omega

lemma jsToLowerChar_idem_toNat (c : Char) :
    (jsToLowerChar (jsToLowerChar c)).toNat = (jsToLowerChar c).toNat := by
  rw [jsToLowerChar_idem]

lemma isWsChar_toNat (c : Char) :
    isWsChar c = (c.toNat == 32 || c.toNat == 9 || c.toNat == 10 ||
      c.toNat == 13 || c.toNat == 11 || c.toNat == 12) := by
  unfold isWsChar
  rw [beq_char_iff_toNat, beq_char_iff_toNat, beq_char_iff_toNat, beq_char_iff_toNat]
  rfl

lemma isWsChar_jsToLowerChar (c : Char) :
    isWsChar (jsToLowerChar c) = isWsChar c := by
  rw [isWsChar_toNat, isWsChar_toNat, jsToLowerChar_toNat]
  rw [Bool.eq_iff_iff]
  simp only [Bool.or_eq_true, beq_iff_eq]
  split_ifs <;> omega

lemma dropWhile_idem {α : Type} (p : α → Bool) (l : List α) :
    (l.dropWhile p).dropWhile p = l.dropWhile p := by
  induction l with
  | nil => rfl
  | cons a t ih =>
    cases hpa : p a <;> simp [List.dropWhile, hpa, ih]

lemma map_dropWhile {α : Type} (f : α → α) (p : α → Bool)
    (h : ∀ a, p (f a) = p a) (l : List α) :
    (l.map f).dropWhile p = (l.dropWhile p).map f := by
  induction l with
  | nil => rfl
  | cons a t ih =>
    cases hpa : p a <;> simp [List.dropWhile, h a, hpa, ih]

lemma dropWhile_suffix {α : Type} (p : α → Bool) (l : List α) :
    l.dropWhile p <:+ l := by
  induction l with
  | nil => exact List.suffix_rfl
  | cons a t ih =>
    cases hpa : p a
    · simp only [List.dropWhile, hpa]
      exact List.suffix_rfl
    · simp only [List.dropWhile, hpa]
      exact ih.trans (List.suffix_cons a t)

lemma dropWhileEnd_prefixOf (p : Char → Bool) (l : List Char) :
    dropWhileEnd p l <+: l := by
  unfold dropWhileEnd
  rw [← List.reverse_reverse l]
  exact List.reverse_prefix.mpr (by
    rw [List.reverse_reverse]
    exact dropWhile_suffix p l.reverse)

lemma dropWhile_of_prefix_of_not (p : Char → Bool) (a : Char) (t l' : List Char)
    (hpre : l' <+: a :: t) (ha : p a = false) : l'.dropWhile p = l' := by
  cases l' with
  | nil => rfl
  | cons b t' =>
    have hb : b = a := by
      rcases hpre with ⟨r, hr⟩
      rw [List.cons_append] at hr
      exact (List.cons_eq_cons.mp hr).1
    subst hb
    simp [List.dropWhile, ha]

lemma map_dropWhileEnd (f : Char → Char) (p : Char → Bool)
    (h : ∀ a, p (f a) = p a) (l : List Char) :
    dropWhileEnd p (l.map f) = (dropWhileEnd p l).map f := by
  unfold dropWhileEnd
  rw [← List.map_reverse, map_dropWhile f p h, List.map_reverse]

lemma dropWhileEnd_idem (p : Char → Bool) (l : List Char) :
    dropWhileEnd p (dropWhileEnd p l) = dropWhileEnd p l := by
  unfold dropWhileEnd
  rw [List.reverse_reverse, dropWhile_idem]

lemma dropWhile_dropWhileEnd_dropWhile (p : Char → Bool) (l : List Char) :
    (dropWhileEnd p (l.dropWhile p)).dropWhile p = dropWhileEnd p (l.dropWhile p) := by
  cases hm : l.dropWhile p with
  | nil =>
    unfold dropWhileEnd
    rfl
  | cons a t =>
    have hfix := dropWhile_idem p l
    rw [hm] at hfix
    have ha : p a = false := by
      cases hpa : p a
      · rfl
      · exfalso
        simp only [List.dropWhile, hpa] at hfix
        have h1 : (List.dropWhile p t).length ≤ t.length := by
          rcases dropWhile_suffix p t with ⟨r, hr⟩
          have h3 := congrArg List.length hr
          simp [List.length_append] at h3
          omega
        have h2 := congrArg List.length hfix
        simp at h2
        omega
    exact dropWhile_of_prefix_of_not p a t _ (dropWhileEnd_prefixOf p (a :: t)) ha

lemma jsToLower_idem (s : String) : jsToLower (jsToLower s) = jsToLower s := by
  cases s with
  | mk l =>
    show String.mk ((l.map jsToLowerChar).map jsToLowerChar) = String.mk (l.map jsToLowerChar)
    rw [List.map_map]
    congr 1
    apply List.map_congr_left
    intro a _
    exact jsToLowerChar_idem a

lemma jsTrim_idem (s : String) : jsTrim (jsTrim s) = jsTrim s := by
  cases s with
  | mk l =>
    show String.mk (dropWhileEnd isWsChar
        ((dropWhileEnd isWsChar (l.dropWhile isWsChar)).dropWhile isWsChar)) =
      String.mk (dropWhileEnd isWsChar (l.dropWhile isWsChar))
    rw [dropWhile_dropWhileEnd_dropWhile, dropWhileEnd_idem]

lemma jsToLower_jsTrim (s : String) : jsToLower (jsTrim s) = jsTrim (jsToLower s) := by
  cases s with
  | mk l =>
    show String.mk ((dropWhileEnd isWsChar (l.dropWhile isWsChar)).map jsToLowerChar) =
      String.mk (dropWhileEnd isWsChar ((l.map jsToLowerChar).dropWhile isWsChar))
    rw [map_dropWhile jsToLowerChar isWsChar isWsChar_jsToLowerChar,
      map_dropWhileEnd jsToLowerChar isWsChar isWsChar_jsToLowerChar]

/-- The normalized email is a fixed point of normalization. -/
lemma clean_of_clean (e : String) :
    jsTrim (jsToLower (jsToLower (jsTrim e))) = jsTrim (jsToLower e) := by
  rw [jsToLower_idem, jsToLower_jsTrim, jsTrim_idem]

/-- Lowercasing the normalized email changes nothing. -/
lemma jsToLower_clean (e : String) :
    jsToLower (jsTrim (jsToLower e)) = jsTrim (jsToLower e) := by
  rw [jsToLower_jsTrim, jsToLower_idem]

/-- Witness for C10 at a concrete query, candidate list and threshold. -/
theorem C10_findBestMatches_witness :
    ((0.7 : Q)).toRat ≤
        ((⟨⟨"1", "Sarah Chen", some "sarah@insight.com", [], Q.mk' 9 10⟩, 1, "alias",
          "Name similarity"⟩ : FuzzyMatchResult)).score.toRat ∧
      ((⟨⟨"1", "Sarah Chen", some "sarah@insight.com", [], Q.mk' 9 10⟩, 1, "alias",
          "Name similarity"⟩ : FuzzyMatchResult)).score.toRat ≤ 1 :=
  C10_findBestMatches_scores_within_threshold_and_one
    { displayName := some "Sara Chen" }
    [⟨"1", "Sarah Chen", some "sarah@insight.com", [], Q.mk' 9 10⟩]
    (0.7 : Q) (by decide) _ (by decide)

/-! ### Claim C1: domain inference for a new non-personal domain -/

/-- Claim C1, counterexample: with no prior data, resolving
`sarah@insightpartners.com` creates the Company and the Person but returns
confidence 0.7, not 0.75 — the no-existing-company branch of
`resolveByCompanyDomain` uses 0.7 while only the existing-company branch uses
0.75. -/
theorem C1_domain_inference_counterexample :
    (resolveAttendee emptyState "sarah@insightpartners.com" none).1.confidence.toRat
      ≠ 0.75 := by
  rw [Q.toRat_eval 7 1 (by decide) (by decide)]
  norm_num

/-- Claim C1 (amended): for an attendee whose email has a non-personal domain
with no matching resolution and no Company for the domain, a Company (name
synthesized from the domain: strip TLD, split on `-`/`_`, title-case) and a
Person are created and the result has confidence 0.7, method `domain_match`,
created_new_entity = true — unlike the existing-company branch, which returns
0.75.  For `sarah@insightpartners.com` on an empty store, Company
"Insightpartners" and a new Person are created with confidence 0.7. -/
theorem C1_domain_inference_amended :
    (resolveAttendee emptyState "sarah@insightpartners.com" none).1.method
        = "domain_match" ∧
    (resolveAttendee emptyState "sarah@insightpartners.com" none).1.created_new_entity
        = true ∧
    ((resolveAttendee emptyState "sarah@insightpartners.com" none).2.db.companies.map
        (fun c => c.name)) = ["Insightpartners"] ∧
    ((resolveAttendee emptyState "sarah@insightpartners.com" none).2.db.companies.map
        (fun c => c.domain)) = [some "insightpartners.com"] ∧
    (resolveAttendee emptyState "sarah@insightpartners.com" none).2.db.people.length
        = 1 ∧
    (resolveAttendee emptyState "sarah@insightpartners.com" none).1.confidence.toRat
        = 0.7 ∧
    (resolveAttendee c1CompanyState "sarah@insightpartners.com" none).1.method
        = "domain_match" ∧
    (resolveAttendee c1CompanyState "sarah@insightpartners.com" none).1.confidence.toRat
        = 0.75 := by
  refine ⟨by decide, by decide, by decide, by decide, by decide, ?_, by decide, ?_⟩
  · rw [Q.toRat_eval 7 1 (by decide) (by decide)]
    norm_num
  · rw [Q.toRat_eval 75 2 (by decide) (by decide)]
    norm_num

/-! ### Claim C2: personal domain with no display name -/

/-- Claim C2, counterexample: for `unknown@gmail.com` with no display name
the code does not return person = null with confidence 0.0 — it creates a
Person named from the email local part with confidence 0.25. -/
theorem C2_personal_domain_counterexample :
    ¬ ((resolveAttendee emptyState "unknown@gmail.com" none).1.person = none ∧
       (resolveAttendee emptyState "unknown@gmail.com" none).1.confidence.toRat = 0) := by
  intro h
  exact absurd h.1 (by decide)

/-- Claim C2 (amended): for an attendee with no display name on a
personal-email domain without an internal marker, `createSmartNewPerson`
still creates a Person — named from the email local part ("Unknown") — and
returns it with confidence 0.25, method `unresolved`,
created_new_entity = true.  The person-null, confidence-0.0 result exists
only in the dead catch branch around `createPerson`, which cannot throw
because it falls back to the in-memory store. -/
theorem C2_personal_domain_amended :
    (resolveAttendee emptyState "unknown@gmail.com" none).1.method = "unresolved" ∧
    ((resolveAttendee emptyState "unknown@gmail.com" none).1.person.map
        (fun p => p.name)) = some "Unknown" ∧
    (resolveAttendee emptyState "unknown@gmail.com" none).1.created_new_entity = true ∧
    (resolveAttendee emptyState "unknown@gmail.com" none).2.db.people.length = 1 ∧
    (resolveAttendee emptyState "unknown@gmail.com" none).1.confidence.toRat = 0.25 := by
  refine ⟨by decide, by decide, by decide, by decide, ?_⟩
  rw [Q.toRat_eval 25 2 (by decide) (by decide)]
  norm_num

/-! ### Claim C4: no validation of the email argument -/

/-- Claim C4, counterexample: `resolveAttendee` does not reject an empty
email with an "email required" error — the empty email flows through every
stage and ends in the unresolved creation path, returning a normal result
with a newly created Person whose name is empty. -/
theorem C4_no_email_validation_counterexample :
    (resolveAttendee emptyState "" none).1.method = "unresolved" ∧
    (resolveAttendee emptyState "" none).1.person ≠ none ∧
    (resolveAttendee emptyState "" none).1.created_new_entity = true := by
  refine ⟨by decide, by decide, by decide⟩

/-- Claim C4 (amended): the public entry point performs no email validation:
an empty email is processed like any other and ends in the unresolved
creation path with a Person whose name derives from the empty local part; the
display name is optional; and resolution is total — it always returns a
result object and never throws for business-logic reasons (a null email is
not representable here; in JavaScript it fails with a generic TypeError from
`toLowerCase`, not an "email required" error). -/
theorem C4_no_email_validation_amended :
    ((resolveAttendee emptyState "" none).1.method = "unresolved" ∧
      ((resolveAttendee emptyState "" none).1.person.map (fun p => p.name)) = some "" ∧
      (resolveAttendee emptyState "" none).1.created_new_entity = true) ∧
    (∀ (st : ServiceState) (e : String) (n : Option String),
      ∃ r s2, resolveAttendee st e n = (r, s2)) :=
  ⟨⟨by decide, by decide, by decide⟩, fun st e n => ⟨_, _, rfl⟩⟩

/-! ### Claim C9: the email argument is normalized before use -/

/-- Claim C9: `resolveAttendee` is insensitive to letter case and surrounding
whitespace of the email — resolving `lowercase(trim(e))` behaves identically
(same result, same final state) to resolving `e`, for every store state and
display name, because the email is normalized before any lookup or
creation. -/
theorem C9_email_normalization_insensitive (st : ServiceState) (email : String)
    (displayName : Option String) :
    resolveAttendee st (jsToLower (jsTrim email)) displayName =
      resolveAttendee st email displayName := by
  unfold resolveAttendee
  rw [clean_of_clean]

/-! ### Claim C5: behavior once the store is unavailable -/

lemma mem_memSet (m : List (String × Person)) (k : String) (v : Person) :
    (k, v) ∈ memSet m k v := by
  induction m with
  | nil => exact List.mem_singleton.mpr rfl
  | cons kv rest ih =>
    rcases kv with ⟨k', v'⟩
    unfold memSet
    split
    · exact List.mem_cons_self _ _
    · exact List.mem_cons_of_mem _ ih

lemma checkManualOverride_no_flag (st : ServiceState) (e : String) (n : Option String)
    (h : st.useDatabaseFallback = false) : checkManualOverride st e n = none := by
  simp [checkManualOverride, h]

lemma findPersonByEmail_no_flag (st : ServiceState) (e : String)
    (h : st.useDatabaseFallback = false) : findPersonByEmail st e = (none, st) := by
  simp [findPersonByEmail, h]

lemma performFuzzyMatching_no_flag (st : ServiceState) (e : String) (n : Option String)
    (h : st.useDatabaseFallback = false) : performFuzzyMatching st e n = (none, st) := by
  simp [performFuzzyMatching, h]

lemma findCompanyByDomain_no_flag (st : ServiceState) (d : String)
    (h : st.useDatabaseFallback = false) : findCompanyByDomain st d = none := by
  simp [findCompanyByDomain, h]

lemma createCompany_no_flag (st : ServiceState) (data : CreateCompanyData)
    (h : st.useDatabaseFallback = false) :
    createCompany st data = .error "Database required for entity creation" := by
  simp [createCompany, h]

lemma resolveByCompanyDomain_no_flag (st : ServiceState) (e : String) (n : Option String)
    (h : st.useDatabaseFallback = false) : resolveByCompanyDomain st e n = (none, st) := by
  unfold resolveByCompanyDomain
  cases hd : (splitSepStr '@' e)[1]? with
  | none => simp only [hd]
  | some ed =>
    simp only [hd]
    split_ifs with h1 h2
    · rfl
    · rfl
    · rw [findCompanyByDomain_no_flag st ed h]
      cases hx : extractCompanyFromEmailDomain e with
      | none => simp only [hx]
      | some nm =>
        simp only [hx, createCompany_no_flag _ _ h]

lemma createPerson_no_flag (st : ServiceState) (data : CreatePersonData)
    (h : st.useDatabaseFallback = false) :
    createPerson st data = createPersonMemory st data := by
  simp [createPerson, h]

lemma createSmartNewPerson_no_flag (st : ServiceState) (e : String) (n : Option String)
    (h : st.useDatabaseFallback = false) :
    ∃ p, (createSmartNewPerson st e n).1.person = some p ∧
      (createSmartNewPerson st e n).1.created_new_entity = true ∧
      ((createSmartNewPerson st e n).1.method = "unresolved" ∨
        (createSmartNewPerson st e n).1.method = "internal_inference") ∧
      (createSmartNewPerson st e n).2.db = st.db ∧
      (createSmartNewPerson st e n).2.useDatabaseFallback = false ∧
      (p.id, p) ∈ (createSmartNewPerson st e n).2.personMemoryStore := by
  unfold createSmartNewPerson
  dsimp only
  split
  · rw [createPerson_no_flag _ _ h]
    unfold createPersonMemory
    exact ⟨_, rfl, rfl, Or.inr rfl, rfl, h, mem_memSet _ _ _⟩
  · rw [createPerson_no_flag _ _ h]
    unfold createPersonMemory
    exact ⟨_, rfl, rfl, Or.inl rfl, rfl, h, mem_memSet _ _ _⟩

lemma resolveAttendee_degraded (st : ServiceState) (e : String) (n : Option String)
    (h : st.useDatabaseFallback = false) :
    resolveAttendee st e n = createSmartNewPerson st (jsTrim (jsToLower e)) n := by
  unfold resolveAttendee resolveAttendeeClean
  simp only [checkManualOverride_no_flag _ _ _ h, findPersonByEmail_no_flag _ _ h,
    performFuzzyMatching_no_flag _ _ _ h, resolveByCompanyDomain_no_flag _ _ _ h]

/-- Claim C5 (amended): store unavailability never raises to the caller
(resolution is total), and the fallback flag, once false, stays false for
every subsequent call.  However, the in-memory fallback store is write-only
for resolution: once degraded, every lookup returns null, so each call
creates a fresh Person in the memory store and never returns via the
exact-email-match state — a Person created in the fallback store is not found
by a later call for the same email. -/
theorem C5_store_fallback_amended :
    (∀ (st : ServiceState) (e : String) (n : Option String),
      (resolveAttendee st e n).2.useDatabaseFallback = true →
        st.useDatabaseFallback = true) ∧
    (∀ (st : ServiceState) (e : String) (n : Option String),
      st.useDatabaseFallback = false →
      ((resolveAttendee st e n).1.method = "unresolved" ∨
        (resolveAttendee st e n).1.method = "internal_inference") ∧
      (resolveAttendee st e n).1.method ≠ "exact_email" ∧
      (resolveAttendee st e n).1.created_new_entity = true ∧
      (resolveAttendee st e n).2.useDatabaseFallback = false ∧
      (resolveAttendee st e n).2.db = st.db ∧
      ∃ p, (resolveAttendee st e n).1.person = some p ∧
        (p.id, p) ∈ (resolveAttendee st e n).2.personMemoryStore) := by
  have hpart2 : ∀ (st : ServiceState) (e : String) (n : Option String),
      st.useDatabaseFallback = false →
      ((resolveAttendee st e n).1.method = "unresolved" ∨
        (resolveAttendee st e n).1.method = "internal_inference") ∧
      (resolveAttendee st e n).1.method ≠ "exact_email" ∧
      (resolveAttendee st e n).1.created_new_entity = true ∧
      (resolveAttendee st e n).2.useDatabaseFallback = false ∧
      (resolveAttendee st e n).2.db = st.db ∧
      ∃ p, (resolveAttendee st e n).1.person = some p ∧
        (p.id, p) ∈ (resolveAttendee st e n).2.personMemoryStore := by
    intro st e n h
    rw [resolveAttendee_degraded st e n h]
    obtain ⟨p, hp, hcn, hm, hdb, hfl, hmem⟩ :=
      createSmartNewPerson_no_flag st (jsTrim (jsToLower e)) n h
    refine ⟨hm, ?_, hcn, hfl, hdb, p, hp, hmem⟩
    rcases hm with hm | hm <;> rw [hm] <;> decide
  constructor
  · intro st e n hft
    by_cases h : st.useDatabaseFallback
    · exact h
    · exfalso
      have h' : st.useDatabaseFallback = false := by simpa using h
      have hfl := (hpart2 st e n h').2.2.2.1
      rw [hft] at hfl
      cases hfl
  · exact hpart2

/-- Witness for the amended C5 at a concrete degraded state. -/
theorem C5_store_fallback_amended_witness :
    ((resolveAttendee { emptyState with useDatabaseFallback := false }
        "bob@acme.com" none).1.method = "unresolved" ∨
      (resolveAttendee { emptyState with useDatabaseFallback := false }
        "bob@acme.com" none).1.method = "internal_inference") ∧
    (resolveAttendee { emptyState with useDatabaseFallback := false }
        "bob@acme.com" none).1.method ≠ "exact_email" ∧
    (resolveAttendee { emptyState with useDatabaseFallback := false }
        "bob@acme.com" none).1.created_new_entity = true ∧
    (resolveAttendee { emptyState with useDatabaseFallback := false }
        "bob@acme.com" none).2.useDatabaseFallback = false ∧
    (resolveAttendee { emptyState with useDatabaseFallback := false }
        "bob@acme.com" none).2.db =
      ({ emptyState with useDatabaseFallback := false } : ServiceState).db ∧
    ∃ p, (resolveAttendee { emptyState with useDatabaseFallback := false }
        "bob@acme.com" none).1.person = some p ∧
      (p.id, p) ∈ (resolveAttendee { emptyState with useDatabaseFallback := false }
        "bob@acme.com" none).2.personMemoryStore :=
  C5_store_fallback_amended.2 { emptyState with useDatabaseFallback := false }
    "bob@acme.com" none rfl

/-- Claim C5, counterexample: with the store down from the start, the first
call flips the fallback flag and creates a Person for `bob@acme.com` in the
memory store, but the second call for the same email does not bind it via
exact email match — it resolves `unresolved` again and creates a second
memory Person, because the degraded lookups never read the fallback store. -/
theorem C5_store_fallback_counterexample :
    (resolveAttendee degradedState "bob@acme.com" (some "Bob")).2.useDatabaseFallback
        = false ∧
    (resolveAttendee degradedState "bob@acme.com" (some "Bob")).2.personMemoryStore.length
        = 1 ∧
    ((resolveAttendee (resolveAttendee degradedState "bob@acme.com"
        (some "Bob")).2 "bob@acme.com" (some "Bob")).1.method ≠ "exact_email") ∧
    ((resolveAttendee (resolveAttendee degradedState "bob@acme.com"
        (some "Bob")).2 "bob@acme.com" (some "Bob")).1.method = "unresolved") ∧
    ((resolveAttendee (resolveAttendee degradedState "bob@acme.com"
        (some "Bob")).2 "bob@acme.com" (some "Bob")).2.personMemoryStore.length = 2) := by
  refine ⟨by decide, by decide, by decide, by decide, by decide⟩

/-! ### Claim C6: idempotence of repeated resolution -/

lemma checkManualOverride_eq_none (st : ServiceState) (e : String) (n : Option String)
    (hdb : st.dbAvailable = true) (hflag : st.useDatabaseFallback = true)
    (hov : findOverrideRow st.db e n = none) : checkManualOverride st e n = none := by
  simp [checkManualOverride, hdb, hflag, hov]

lemma findPersonByEmail_up (st : ServiceState) (e : String)
    (hdb : st.dbAvailable = true) (hflag : st.useDatabaseFallback = true) :
    findPersonByEmail st e =
      (pickFirstBy betterPersonRow (st.db.people.filter fun p =>
        p.emails.contains (jsToLower e) && p.entity_status == "active"), st) := by
  simp [findPersonByEmail, hdb, hflag]

lemma createPerson_up_spec (st : ServiceState) (data : CreatePersonData)
    (hdb : st.dbAvailable = true) (hflag : st.useDatabaseFallback = true) :
    ∃ p, createPerson st data =
        (p, { st with db := { st.db with people := st.db.people ++ [p] }
                      nextId := st.nextId + 1 }) ∧
      p.emails = data.emails ∧ p.entity_status = "active" := by
  unfold createPerson
  rw [if_pos hflag, if_pos hdb]
  exact ⟨_, rfl, rfl, rfl⟩

lemma createCompany_up (st : ServiceState) (data : CreateCompanyData)
    (hdb : st.dbAvailable = true) (hflag : st.useDatabaseFallback = true) :
    ∃ c, createCompany st data =
      .ok (c, { st with db := { st.db with companies := st.db.companies ++ [c] }
                        nextId := st.nextId + 1 }) := by
  unfold createCompany
  rw [if_neg (by simp [hflag]), if_neg (by simp [hdb])]
  exact ⟨_, rfl⟩

lemma performFuzzyMatching_spec (st : ServiceState) (e : String) (n : Option String) :
    performFuzzyMatching st e n = (none, st) ∨
    ∃ r s', performFuzzyMatching st e n = (some r, s') ∧
      r.created_new_entity = false := by
  unfold performFuzzyMatching
  dsimp only
  split
  · exact Or.inl rfl
  · split
    · exact Or.inl rfl
    · split
      · exact Or.inl rfl
      · split
        · exact Or.inl rfl
        · split
          · exact Or.inl rfl
          · exact Or.inr ⟨_, _, rfl, rfl⟩

lemma resolveByCompanyDomain_spec (st : ServiceState) (e : String) (n : Option String)
    (hdb : st.dbAvailable = true) (hflag : st.useDatabaseFallback = true) :
    resolveByCompanyDomain st e n = (none, st) ∨
    ∃ r s' p, resolveByCompanyDomain st e n = (some r, s') ∧
      r.person = some p ∧ r.created_new_entity = true ∧
      p.emails = [e] ∧ p.entity_status = "active" ∧
      s'.db.people = st.db.people ++ [p] ∧
      s'.db.aliases = st.db.aliases ∧ s'.db.overrides = st.db.overrides ∧
      s'.dbAvailable = true ∧ s'.useDatabaseFallback = true := by
  unfold resolveByCompanyDomain
  cases hd : (splitSepStr '@' e)[1]? with
  | none => exact Or.inl rfl
  | some ed =>
    simp only [hd]
    split_ifs with h1 h2
    · exact Or.inl rfl
    · exact Or.inl rfl
    · cases hc : findCompanyByDomain st ed with
      | none =>
        simp only [hc]
        cases hx : extractCompanyFromEmailDomain e with
        | none => exact Or.inl rfl
        | some nm =>
          simp only [hx]
          obtain ⟨c, hcc⟩ := createCompany_up st
            { name := nm
              domain := some ed
              company_type := "customer"
              description := some ("Auto-created from email domain: " ++ ed) } hdb hflag
          simp only [hcc]
          obtain ⟨p, hcp, hpe, hps⟩ := createPerson_up_spec
            { st with db := { st.db with companies := st.db.companies ++ [c] }
                      nextId := st.nextId + 1 }
            { name := orElseStr n (extractNameFromEmail e)
              emails := [e]
              company_id := some c.id
              person_type := "external"
              confidence := some 0.7 } hdb hflag
          simp only [hcp]
          exact Or.inr ⟨_, _, p, rfl, rfl, rfl, hpe, hps, rfl, rfl, rfl, hdb, hflag⟩
      | some company =>
        simp only [hc]
        obtain ⟨p, hcp, hpe, hps⟩ := createPerson_up_spec st
          { name := orElseStr n (extractNameFromEmail e)
            emails := [e]
            company_id := some company.id
            person_type := "external"
            confidence := some 0.75 } hdb hflag
        simp only [hcp]
        exact Or.inr ⟨_, _, p, rfl, rfl, rfl, hpe, hps, rfl, rfl, rfl, hdb, hflag⟩

lemma createSmartNewPerson_up (st : ServiceState) (e : String) (n : Option String)
    (hdb : st.dbAvailable = true) (hflag : st.useDatabaseFallback = true) :
    ∃ r s' p, createSmartNewPerson st e n = (r, s') ∧
      r.person = some p ∧ r.created_new_entity = true ∧
      p.emails = [e] ∧ p.entity_status = "active" ∧
      s'.db.people = st.db.people ++ [p] ∧
      s'.db.aliases = st.db.aliases ∧ s'.db.overrides = st.db.overrides ∧
      s'.dbAvailable = true ∧ s'.useDatabaseFallback = true := by
  unfold createSmartNewPerson
  dsimp only
  split
  · obtain ⟨p, hcp, hpe, hps⟩ := createPerson_up_spec st
      { name := orElseStr n (extractNameFromEmail e)
        emails := [e]
        company_id := (findTribeCompany st).map (fun c => c.id)
        person_type := "internal"
        confidence := some 0.8 } hdb hflag
    simp only [hcp]
    exact ⟨_, _, p, rfl, rfl, rfl, hpe, hps, rfl, rfl, rfl, hdb, hflag⟩
  · obtain ⟨p, hcp, hpe, hps⟩ := createPerson_up_spec st
      { name := orElseStr n (extractNameFromEmail e)
        emails := [e]
        company_id := none
        person_type := "external"
        confidence := some 0.25 } hdb hflag
    simp only [hcp]
    exact ⟨_, _, p, rfl, rfl, rfl, hpe, hps, rfl, rfl, rfl, hdb, hflag⟩

lemma updatePersonInteraction_fields (st : ServiceState) (pid : String) :
    (updatePersonInteraction st pid).db.people.length = st.db.people.length ∧
    (updatePersonInteraction st pid).db.aliases = st.db.aliases ∧
    (updatePersonInteraction st pid).db.companies = st.db.companies ∧
    (updatePersonInteraction st pid).db.overrides = st.db.overrides := by
  unfold updatePersonInteraction
  split_ifs <;> simp

lemma pickFirstBy_isSome {α : Type} (better : α → α → Bool) (l : List α)
    (hl : l ≠ []) : ∃ a, pickFirstBy better l = some a := by
  have haux : ∀ (l' : List α) (a : α),
      ∃ b, l'.foldl (fun acc x =>
        match acc with
        | none => some x
        | some a => if better x a then some x else some a) (some a) = some b := by
    intro l'
    induction l' with
    | nil => exact fun a => ⟨a, rfl⟩
    | cons x xs ih =>
      intro a
      rw [List.foldl_cons]
      dsimp only
      split
      · exact ih x
      · exact ih a
  cases l with
  | nil => exact absurd rfl hl
  | cons x xs =>
    unfold pickFirstBy
    rw [List.foldl_cons]
    dsimp only
    exact haux xs x

lemma findOverrideRow_congr {db1 db2 : Db} (e : String) (n : Option String)
    (h : db1.overrides = db2.overrides) :
    findOverrideRow db1 e n = findOverrideRow db2 e n := by
  unfold findOverrideRow
  rw [h]

lemma resolveAttendeeClean_exact (st : ServiceState) (ce : String) (n : Option String)
    (hdb : st.dbAvailable = true) (hflag : st.useDatabaseFallback = true)
    (hov : findOverrideRow st.db ce n = none)
    (hex : ∃ q ∈ st.db.people, jsToLower ce ∈ q.emails ∧ q.entity_status = "active") :
    ∃ r s', resolveAttendeeClean st ce n = (r, s') ∧ r.method = "exact_email" ∧
      r.created_new_entity = false ∧
      s'.db.people.length = st.db.people.length ∧
      s'.db.aliases = st.db.aliases ∧ s'.db.companies = st.db.companies ∧
      s'.db.overrides = st.db.overrides := by
  obtain ⟨q, hqmem, hqe, hqs⟩ := hex
  have hfilter : q ∈ st.db.people.filter (fun p =>
      p.emails.contains (jsToLower ce) && p.entity_status == "active") := by
    rw [List.mem_filter]
    refine ⟨hqmem, ?_⟩
    have h1 : q.emails.contains (jsToLower ce) = true := List.elem_iff.mpr hqe
    simp [h1, hqs, hqe]
  have hne : st.db.people.filter (fun p =>
      p.emails.contains (jsToLower ce) && p.entity_status == "active") ≠ [] :=
    List.ne_nil_of_mem hfilter
  obtain ⟨found, hfound⟩ := pickFirstBy_isSome betterPersonRow _ hne
  unfold resolveAttendeeClean
  rw [checkManualOverride_eq_none st ce n hdb hflag hov,
    findPersonByEmail_up st ce hdb hflag, hfound]
  have hupd := updatePersonInteraction_fields st found.id
  exact ⟨_, _, rfl, rfl, rfl, hupd.1, hupd.2.1, hupd.2.2.1, hupd.2.2.2⟩

lemma resolveAttendeeClean_created (st : ServiceState) (ce : String) (n : Option String)
    (r1 : EntityResolutionResult) (s1 : ServiceState)
    (hdb : st.dbAvailable = true) (hflag : st.useDatabaseFallback = true)
    (hov : findOverrideRow st.db ce n = none)
    (hres : resolveAttendeeClean st ce n = (r1, s1))
    (hnew : r1.created_new_entity = true) :
    ∃ p, r1.person = some p ∧ p.emails = [ce] ∧ p.entity_status = "active" ∧
      s1.db.people = st.db.people ++ [p] ∧ s1.db.aliases = st.db.aliases ∧
      s1.db.overrides = st.db.overrides ∧ s1.dbAvailable = true ∧
      s1.useDatabaseFallback = true := by
  unfold resolveAttendeeClean at hres
  rw [checkManualOverride_eq_none st ce n hdb hflag hov,
    findPersonByEmail_up st ce hdb hflag] at hres
  cases hpick : pickFirstBy betterPersonRow (st.db.people.filter fun p =>
      p.emails.contains (jsToLower ce) && p.entity_status == "active") with
  | some found =>
    rw [hpick] at hres
    dsimp only at hres
    injection hres with he1 he2
    rw [← he1] at hnew
    simp at hnew
  | none =>
    rw [hpick] at hres
    dsimp only at hres
    rcases performFuzzyMatching_spec st ce n with hpf | ⟨r', s', hpf, hr'⟩
    · rw [hpf] at hres
      dsimp only at hres
      rcases resolveByCompanyDomain_spec st ce n hdb hflag with
        hdc | ⟨r4, s4, p, hdc, hperson, hcn, hpe, hps, hpeople, hal, hovr, hdba, hfl⟩
      · rw [hdc] at hres
        dsimp only at hres
        obtain ⟨r5, s5, p, h5, hperson, hcn, hpe, hps, hpeople, hal, hovr, hdba, hfl⟩ :=
          createSmartNewPerson_up st ce n hdb hflag
        rw [h5] at hres
        injection hres with he1 he2
        subst he1
        subst he2
        exact ⟨p, hperson, hpe, hps, hpeople, hal, hovr, hdba, hfl⟩
      · rw [hdc] at hres
        dsimp only at hres
        injection hres with he1 he2
        subst he1
        subst he2
        exact ⟨p, hperson, hpe, hps, hpeople, hal, hovr, hdba, hfl⟩
    · rw [hpf] at hres
      dsimp only at hres
      injection hres with he1 he2
      subst he1
      rw [hnew] at hr'
      cases hr'

/-- Claim C6 (amended): with the store available and no manual override
recorded for the identifier, if the first resolution of `(email,
display_name)` created a new entity, the second resolution of the same pair
binds via the exact-email-match state (`exact_email`), creating no further
Person, Alias or Company.  When the first call instead fuzzy-matched an
existing Person, the second call re-binds through the fuzzy state — the email
is learned only as an alias, not added to the Person record — so it never
converges to `exact_email`; the alias existence check prevents any
duplicate. -/
theorem C6_idempotent_resolution_amended (st : ServiceState) (e : String)
    (n : Option String) (r1 : EntityResolutionResult) (s1 : ServiceState)
    (hdb : st.dbAvailable = true) (hflag : st.useDatabaseFallback = true)
    (hov : findOverrideRow st.db (jsTrim (jsToLower e)) n = none)
    (h1 : resolveAttendee st e n = (r1, s1))
    (hnew : r1.created_new_entity = true) :
    ∃ r2 s2, resolveAttendee s1 e n = (r2, s2) ∧ r2.method = "exact_email" ∧
      r2.created_new_entity = false ∧
      s2.db.people.length = s1.db.people.length ∧
      s2.db.aliases = s1.db.aliases ∧ s2.db.companies = s1.db.companies := by
  unfold resolveAttendee at h1 ⊢
  obtain ⟨p, hp, hpe, hps, hpeople, hal, hovr, hdba, hfl⟩ :=
    resolveAttendeeClean_created st _ n r1 s1 hdb hflag hov h1 hnew
  have hov2 : findOverrideRow s1.db (jsTrim (jsToLower e)) n = none := by
    rw [findOverrideRow_congr _ n hovr]
    exact hov
  have hex : ∃ q ∈ s1.db.people, jsToLower (jsTrim (jsToLower e)) ∈ q.emails ∧
      q.entity_status = "active" := by
    refine ⟨p, ?_, ?_, hps⟩
    · rw [hpeople]
      exact List.mem_append_right _ (List.mem_singleton.mpr rfl)
    · rw [jsToLower_clean, hpe]
      exact List.mem_singleton.mpr rfl
  obtain ⟨r2, s2, hres2, hm2, hc2, hlen, hal2, hcomp2, hovr2⟩ :=
    resolveAttendeeClean_exact s1 _ n hdba hfl hov2 hex
  exact ⟨r2, s2, hres2, hm2, hc2, hlen, hal2, hcomp2⟩

/-- Witness for the amended C6: on an empty store, the first resolution of
`carol@acme.com` creates a new entity via domain inference, and the second
resolution binds it via exact email match. -/
theorem C6_idempotent_resolution_amended_witness :
    ∃ r2 s2, resolveAttendee
        (resolveAttendee emptyState "carol@acme.com" (some "Carol")).2
        "carol@acme.com" (some "Carol") = (r2, s2) ∧
      r2.method = "exact_email" ∧ r2.created_new_entity = false ∧
      s2.db.people.length =
        (resolveAttendee emptyState "carol@acme.com" (some "Carol")).2.db.people.length ∧
      s2.db.aliases =
        (resolveAttendee emptyState "carol@acme.com" (some "Carol")).2.db.aliases ∧
      s2.db.companies =
        (resolveAttendee emptyState "carol@acme.com" (some "Carol")).2.db.companies :=
  C6_idempotent_resolution_amended emptyState "carol@acme.com" (some "Carol")
    (resolveAttendee emptyState "carol@acme.com" (some "Carol")).1
    (resolveAttendee emptyState "carol@acme.com" (some "Carol")).2
    (by decide) (by decide) (by decide) rfl (by decide)

/-- Claim C6, counterexample: a Person "Alex Thompson" exists with email
`alex@scalevp.com`; resolving `(athompson@scale.com, Alex Thompson)` twice
never hits the exact-email-match state — both calls resolve through the fuzzy
state (`alias_match`), because the matched email is recorded only as an alias
and never added to the Person record.  The alias is still learned exactly
once and no Person is duplicated. -/
theorem C6_idempotent_resolution_counterexample :
    ((resolveAttendee (resolveAttendee alexState "athompson@scale.com"
        (some "Alex Thompson")).2 "athompson@scale.com"
        (some "Alex Thompson")).1.method ≠ "exact_email") ∧
    ((resolveAttendee (resolveAttendee alexState "athompson@scale.com"
        (some "Alex Thompson")).2 "athompson@scale.com"
        (some "Alex Thompson")).1.method = "alias_match") ∧
    ((resolveAttendee alexState "athompson@scale.com"
        (some "Alex Thompson")).2.db.aliases.length = 1) ∧
    ((resolveAttendee (resolveAttendee alexState "athompson@scale.com"
        (some "Alex Thompson")).2 "athompson@scale.com"
        (some "Alex Thompson")).2.db.aliases.length = 1) ∧
    ((resolveAttendee (resolveAttendee alexState "athompson@scale.com"
        (some "Alex Thompson")).2 "athompson@scale.com"
        (some "Alex Thompson")).2.db.people.length = 1) := by
  refine ⟨by decide, by decide, by decide, by decide, by decide⟩

end TribeER
